import Mathlib

/-!
# Keyglove LUFA demo: Virtual Serial + Generic HID (SerialGenericKMJ.c)

A shallow embedding of `src/keyglove_lufa/LUFADemo/SerialGenericKMJ/SerialGenericKMJ.c`.

* Machine integers are natural numbers with explicit reduction modulo `2^w`.
* The file-scope variables of the C file are the fields of `State`.
* What the firmware does to the USB hardware (bytes written to an endpoint bank, packets
  committed, the argument handed to the report hook) is recorded in observation fields of
  `State`.
* What the host does (device state, packets that arrived, control requests) is an explicit
  argument of each task.
* The constants of the headers `SerialGenericKMJ.h` / `Descriptors.h`, which are not among the
  sources, are the fields of `Config`, together with the one fact about the memory layout that
  the program depends on: what lies behind the array `HIDReportOutData`.
* The ring buffer operations of the LUFA header `RingBuffer.h`, which is not among the sources
  either, follow the specification (§3, §4.1).
-/

namespace Keyglove

/-! ## Ring buffer -/

/-- Modelled from the spec: the ring buffer type `RingBuffer_t` of the LUFA header
`RingBuffer.h`, which is not part of the sources. Spec §3: "RingBuffer: { storage:
fixed-capacity array of byte, capacity: integer, head: index, tail: index, count: integer }". -/
structure RingBuffer where
  storage : List Nat
  capacity : Nat
  head : Nat
  tail : Nat
  count : Nat
deriving DecidableEq

/-- Modelled from the spec: `RingBuffer_InitBuffer` of the missing LUFA header. Spec §4.1:
"init(capacity) → allocates/attaches backing storage, resets head=tail=count=0". -/
def RingBuffer_InitBuffer (data : List Nat) (size : Nat) : RingBuffer :=
  { storage := data, capacity := size, head := 0, tail := 0, count := 0 }

/-- Modelled from the spec: `RingBuffer_Insert` of the missing LUFA header. Spec §4.1:
"insert(byte) → appends one byte at tail, advances tail circularly, increments count";
there is no full check (spec §9: "silently permits overwrite via modulo arithmetic"). -/
def RingBuffer_Insert (rb : RingBuffer) (data : Nat) : RingBuffer :=
  { rb with
    storage := rb.storage.set rb.tail data
    tail := (rb.tail + 1) % rb.capacity
    count := rb.count + 1 }

/-- Modelled from the spec: `RingBuffer_Remove` of the missing LUFA header. Spec §4.1:
"remove() -> byte → returns byte at head, advances head circularly, decrements count.
Precondition: count > 0"; spec §3: "remove is undefined if count == 0", which is `none`. -/
def RingBuffer_Remove (rb : RingBuffer) : Option (Nat × RingBuffer) :=
  if rb.count = 0 then none
  else some (rb.storage.getD rb.head 0,
    { rb with head := (rb.head + 1) % rb.capacity, count := rb.count - 1 })

/-- Modelled from the spec: `RingBuffer_GetCount` of the missing LUFA header. Spec §4.1:
"count() -> integer → current occupancy". -/
def RingBuffer_GetCount (rb : RingBuffer) : Nat := rb.count

/-- The data-model invariant of spec §3: the backing array has `capacity` cells, the cursors
are valid indices, `count` is at most the capacity and is the distance from head to tail. -/
def RingBuffer.WF (rb : RingBuffer) : Prop :=
  rb.storage.length = rb.capacity ∧ rb.head < rb.capacity ∧ rb.count ≤ rb.capacity ∧
    rb.tail = (rb.head + rb.count) % rb.capacity

instance (rb : RingBuffer) : Decidable rb.WF := by
  unfold RingBuffer.WF; infer_instance

/-- The `n` bytes read from `storage` starting at index `h` and wrapping at `cap`. -/
def readFrom (storage : List Nat) (cap : Nat) : Nat → Nat → List Nat
  | _, 0 => []
  | h, n + 1 => storage.getD h 0 :: readFrom storage cap ((h + 1) % cap) n

/-- The unread bytes of a ring buffer in FIFO order: what successive removes return. -/
def RingBuffer.contents (rb : RingBuffer) : List Nat :=
  readFrom rb.storage rb.capacity rb.head rb.count

/-! ## Program state -/

/-- The C struct `CDC_LineEncoding_t`. -/
structure LineEncoding where
  BaudRateBPS : Nat
  CharFormat : Nat
  ParityType : Nat
  DataBits : Nat
deriving DecidableEq

/-- The file-scope variables of `SerialGenericKMJ.c` other than `HIDReportOutData`: the
objects a byte written beyond the end of that array can land in. -/
structure Neighbours where
  LineEncodingData : LineEncoding
  HostRXSerial_Buffer : RingBuffer
  HostTXSerial_Buffer : RingBuffer
  HIDReportInData : List Nat
  tickCounter : Nat
  outputCounter : Nat
  HostSerialLocalEcho : Bool

/-- Constants of the headers that are not part of the sources, and the memory layout behind
`HIDReportOutData`: `strayWrite k` is what a zero stored at `HIDReportOutData + k`, for an
offset `k` beyond the end of the array, does to the other variables of the file. Nothing is
assumed about it, so it covers every placement the linker can choose. -/
structure Config where
  GENERIC_REPORT_SIZE : Nat
  CDC_TXRX_EPSIZE : Nat
  HID_REPORTID_MouseReport : Nat
  HID_REPORTID_KeyboardReport : Nat
  HID_REPORTID_JoystickReport : Nat
  strayWrite : Nat → Neighbours → Neighbours

/-- The two report arrays a `uint8_t*` argument of `ProcessHIDReport` can point to. -/
inductive ReportBuffer where
  | HIDReportInData
  | HIDReportOutData
deriving DecidableEq

/-- The file-scope variables of `SerialGenericKMJ.c` (lines 47-70), followed by the
observations of what the firmware did to the hardware. -/
structure State where
  LineEncodingData : LineEncoding
  HostRXSerial_Buffer : RingBuffer
  HostTXSerial_Buffer : RingBuffer
  HIDReportInData : List Nat
  HIDReportOutData : List Nat
  tickCounter : Nat
  outputCounter : Nat
  HostSerialLocalEcho : Bool
  /-- Bytes written to `UEDATX` of the serial TX endpoint and not yet committed. -/
  cdcTxBank : List Nat
  /-- Packets committed on the serial TX endpoint by `Endpoint_ClearIN`, oldest first. -/
  cdcTxSent : List (List Nat)
  /-- Reports written to the HID IN endpoint, oldest first. -/
  hidInSent : List (List Nat)
  /-- Data stages written to the control endpoint, oldest first. -/
  controlSent : List (List Nat)
  /-- Arguments of the calls of `ProcessHIDReport`: the array pointed to and its contents. -/
  processed : List (ReportBuffer × List Nat)
  /-- Offsets (relative to `HIDReportOutData`) of bytes written beyond the end of that array;
  where such a byte lands is given by `Config.strayWrite`. -/
  outOfBounds : List Nat
deriving DecidableEq

/-- The state at the entry of the main loop (lines 47-78): zero-initialised arrays, both ring
buffers initialised over their 128-byte arrays. -/
def initialState (cfg : Config) : State :=
  { LineEncodingData := { BaudRateBPS := 0, CharFormat := 0, ParityType := 0, DataBits := 8 }
    HostRXSerial_Buffer := RingBuffer_InitBuffer (List.replicate 128 0) 128
    HostTXSerial_Buffer := RingBuffer_InitBuffer (List.replicate 128 0) 128
    HIDReportInData := List.replicate cfg.GENERIC_REPORT_SIZE 0
    HIDReportOutData := List.replicate cfg.GENERIC_REPORT_SIZE 0
    tickCounter := 0
    outputCounter := 1
    HostSerialLocalEcho := true
    cdcTxBank := []
    cdcTxSent := []
    hidInSent := []
    controlSent := []
    processed := []
    outOfBounds := [] }

/-- All bytes ever written to the serial TX endpoint, in the order they were written. -/
def State.txStream (s : State) : List Nat := s.cdcTxSent.flatten ++ s.cdcTxBank

/-! ## The demo tick scheduler (main, lines 87-169) -/

/-- Subtraction of `uint32_t` values. -/
def sub32 (a b : Nat) : Nat := (a + 4294967296 - b % 4294967296) % 4294967296

/-- Conversion to `uint8_t`. -/
def toU8 (x : Nat) : Nat := x % 256

/-- The body of the main loop up to the task calls: the `if / else if` chain on
`tickCounter % 10000` (lines 87-169). The report array is taken to have the cells 0 to 8 that
the code stores to (`GENERIC_REPORT_SIZE ≥ 9`); a store to a cell the array does not have is
not modelled. -/
def schedulerStep (cfg : Config) (s : State) : State :=
  if s.tickCounter % 10000 = 1000 then
    let b := RingBuffer_Insert s.HostTXSerial_Buffer 84   -- 'T'
    let b := RingBuffer_Insert b 105                      -- 'i'
    let b := RingBuffer_Insert b 99                       -- 'c'
    let b := RingBuffer_Insert b 107                      -- 'k'
    let b := RingBuffer_Insert b 32                       -- ' '
    let b := RingBuffer_Insert b (toU8 (48 + ((sub32 s.tickCounter 1000) / 10000) % 10))
    let b := RingBuffer_Insert b 10
    let b := RingBuffer_Insert b 13
    { s with HostTXSerial_Buffer := b }
  else if s.tickCounter % 10000 = 3000 then
    { s with HIDReportOutData :=
        ((((((((s.HIDReportOutData.set 0 cfg.HID_REPORTID_MouseReport).set 1 0).set 2 10).set 3
          10).set 4 255).set 5 0).set 6 0).set 7 0).set 8 0 }
  else if s.tickCounter % 10000 = 5000 then
    { s with HIDReportOutData :=
        ((((((((s.HIDReportOutData.set 0 cfg.HID_REPORTID_KeyboardReport).set 1 0).set 2 0).set 3
          (toU8 (4 + ((sub32 s.tickCounter 1000) / 10000) % 26))).set 4 0).set 5 0).set 6 0).set
            7 0).set 8 0 }
  else if s.tickCounter % 10000 = 6000 then
    { s with HIDReportOutData :=
        ((((((((s.HIDReportOutData.set 0 cfg.HID_REPORTID_KeyboardReport).set 1 0).set 2 0).set 3
          0).set 4 0).set 5 0).set 6 0).set 7 0).set 8 0 }
  else if s.tickCounter % 10000 = 7000 then
    { s with HIDReportOutData :=
        ((((((((s.HIDReportOutData.set 0 cfg.HID_REPORTID_JoystickReport).set 1 1).set 2 0).set 3
          5).set 4 5).set 5 251).set 6 251).set 7 0).set 8 0 }
  else if s.tickCounter % 10000 = 8000 then
    { s with HIDReportOutData :=
        ((((((((s.HIDReportOutData.set 0 cfg.HID_REPORTID_JoystickReport).set 1 0).set 2 0).set 3
          0).set 4 0).set 5 0).set 6 0).set 7 0).set 8 0 }
  else s

/-! ## The serial task (CDC_Task, lines 339-403) -/

/-- The call `Endpoint_ClearIN()` on the serial TX endpoint: the bank is committed as one
packet. -/
def Endpoint_ClearIN (s : State) : State :=
  { s with cdcTxSent := s.cdcTxSent ++ [s.cdcTxBank], cdcTxBank := [] }

/-- The drain loop of lines 356-359,
`for (uint16_t i = 0; i < CDC_TXRX_EPSIZE && BufferCount; i++, BufferCount--)`, entered with
the current values of `i` and `BufferCount`. The result is `none` when `RingBuffer_Remove` is
called on an empty buffer. -/
def drainLoop (epsize : Nat) : Nat → Nat → State → Option State
  | _, 0, s => some s
  | i, bufferCount + 1, s =>
    if i < epsize then
      match RingBuffer_Remove s.HostTXSerial_Buffer with
      | none => none
      | some (b, rb) =>
        drainLoop epsize ((i + 1) % 65536) bufferCount
          { s with HostTXSerial_Buffer := rb, cdcTxBank := s.cdcTxBank ++ [b] }
    else some s

/-- The outbound phase of `CDC_Task` (lines 345-378). `Endpoint_WaitUntilReady` is taken to
return, and the LED pin on `PORTD` is not modelled. -/
def CDC_Task_outbound (cfg : Config) (s : State) : Option State :=
  let bufferCount := RingBuffer_GetCount s.HostTXSerial_Buffer % 65536
  if bufferCount ≠ 0 ∧ s.LineEncodingData.BaudRateBPS ≠ 0 then
    match drainLoop cfg.CDC_TXRX_EPSIZE 0 bufferCount s with
    | none => none
    | some s1 =>
      let isFull := s1.cdcTxBank.length = cfg.CDC_TXRX_EPSIZE
      let s2 := Endpoint_ClearIN s1
      some (if isFull then Endpoint_ClearIN s2 else s2)
  else some s

/-- One pass of the receive loop body (lines 389-396) for the byte `b` read from `UEDATX`. -/
def receiveByte (s : State) (b : Nat) : State :=
  let s1 := { s with HostRXSerial_Buffer := RingBuffer_Insert s.HostRXSerial_Buffer b }
  if s1.HostSerialLocalEcho then
    { s1 with HostTXSerial_Buffer := RingBuffer_Insert s1.HostTXSerial_Buffer b }
  else s1

/-- The inbound phase of `CDC_Task` (lines 380-401). `received` is the packet waiting in the
serial RX endpoint, `none` when `Endpoint_IsOUTReceived()` is false; the loop reads its
`Endpoint_BytesInEndpoint()` bytes in order. -/
def CDC_Task_inbound (received : Option (List Nat)) (s : State) : State :=
  match received with
  | none => s
  | some packet => packet.foldl receiveByte s

/-- The function `CDC_Task` (lines 339-403). `configured` is
`USB_DeviceState == DEVICE_STATE_Configured`. -/
def CDC_Task (cfg : Config) (configured : Bool) (received : Option (List Nat)) (s : State) :
    Option State :=
  if configured then
    match CDC_Task_outbound cfg s with
    | none => none
    | some s1 => some (CDC_Task_inbound received s1)
  else some s

/-! ## The HID task (lines 405-458) and the control requests (lines 243-314) -/

/-- The function `ProcessHIDReport` (lines 409-417): its body is empty; the call and its
argument are recorded. -/
def ProcessHIDReport (dataArray : ReportBuffer) (s : State) : State :=
  { s with processed := s.processed ++
      [(dataArray, match dataArray with
        | .HIDReportInData => s.HIDReportInData
        | .HIDReportOutData => s.HIDReportOutData)] }

/-- The stream reads `Endpoint_Read_Stream_LE(&buf, sizeof(buf), NULL)` and
`Endpoint_Read_Control_Stream_LE(&buf, sizeof(buf))`: the first `sizeof(buf)` bytes sent by
the host overwrite the array from its start (cells the host sent no byte for are kept). -/
def readStream (buf : List Nat) (sent : List Nat) : List Nat :=
  sent.take buf.length ++ buf.drop sent.length

/-- The library call `memset(arr, v, n)` restricted to the array: the cells of `arr` with
index below `n` are set to `v`. -/
def memset (arr : List Nat) (v n : Nat) : List Nat :=
  List.replicate (min n arr.length) v ++ arr.drop n

/-- The offsets a call `memset(arr, v, n)` writes to. -/
def memsetOffsets (n : Nat) : List Nat := List.range n

/-- The variables of the state other than `HIDReportOutData`. -/
def State.neighbours (s : State) : Neighbours :=
  { LineEncodingData := s.LineEncodingData
    HostRXSerial_Buffer := s.HostRXSerial_Buffer
    HostTXSerial_Buffer := s.HostTXSerial_Buffer
    HIDReportInData := s.HIDReportInData
    tickCounter := s.tickCounter
    outputCounter := s.outputCounter
    HostSerialLocalEcho := s.HostSerialLocalEcho }

/-- The state with the variables other than `HIDReportOutData` replaced. -/
def State.setNeighbours (s : State) (n : Neighbours) : State :=
  { s with
    LineEncodingData := n.LineEncodingData
    HostRXSerial_Buffer := n.HostRXSerial_Buffer
    HostTXSerial_Buffer := n.HostTXSerial_Buffer
    HIDReportInData := n.HIDReportInData
    tickCounter := n.tickCounter
    outputCounter := n.outputCounter
    HostSerialLocalEcho := n.HostSerialLocalEcho }

/-- A zero stored at `HIDReportOutData + offset`, beyond the end of the array: it lands in
whatever the layout placed there. -/
def strayStore (cfg : Config) (s : State) (offset : Nat) : State :=
  s.setNeighbours (cfg.strayWrite offset s.neighbours)

/-- The clear `memset(&HIDReportOutData, 0, GENERIC_REPORT_SIZE + 1)` of lines 258 and 453:
the cells of the array are zeroed, and every offset beyond its end is recorded and stored to
the neighbouring memory. -/
def clearReportOut (cfg : Config) (s : State) : State :=
  ((memsetOffsets (cfg.GENERIC_REPORT_SIZE + 1)).filter
      (fun i => decide (s.HIDReportOutData.length ≤ i))).foldl (strayStore cfg)
    { s with
      HIDReportOutData := memset s.HIDReportOutData 0 (cfg.GENERIC_REPORT_SIZE + 1)
      outOfBounds := s.outOfBounds ++
        (memsetOffsets (cfg.GENERIC_REPORT_SIZE + 1)).filter
          (fun i => decide (s.HIDReportOutData.length ≤ i)) }

/-- The function `HID_Task` (lines 419-458). `received` is the report waiting in the HID OUT
endpoint (`none` when `Endpoint_IsOUTReceived()` is false, the empty list when the packet
holds no data) and `inReady` is `Endpoint_IsINReady()` on the HID IN endpoint. -/
def HID_Task (cfg : Config) (configured : Bool) (received : Option (List Nat)) (inReady : Bool)
    (s : State) : State :=
  if configured then
    let s1 :=
      match received with
      | none => s
      | some packet =>
        if packet.length ≠ 0 then
          ProcessHIDReport ReportBuffer.HIDReportOutData
            { s with HIDReportInData := readStream s.HIDReportInData packet }
        else s
    if inReady then
      clearReportOut cfg { s1 with hidInSent := s1.hidInSent ++ [s1.HIDReportOutData] }
    else s1
  else s

/-- The class requests handled by `EVENT_USB_Device_ControlRequest`, with the data stage sent
by the host where there is one. A request whose `bmRequestType` is not the expected one, or
whose `bRequest` is not handled, is `other`. -/
inductive ControlRequest where
  | HID_REQ_GetReport
  | HID_REQ_SetReport (report : List Nat)
  | CDC_REQ_GetLineEncoding
  | CDC_REQ_SetLineEncoding (encoding : LineEncoding)
  | CDC_REQ_SetControlLineState
  | other
deriving DecidableEq

/-- The bytes of a `CDC_LineEncoding_t` in memory order (little endian). -/
def LineEncoding.bytes (e : LineEncoding) : List Nat :=
  [e.BaudRateBPS % 256, e.BaudRateBPS / 256 % 256, e.BaudRateBPS / 65536 % 256,
    e.BaudRateBPS / 16777216 % 256, e.CharFormat, e.ParityType, e.DataBits]

/-- The function `EVENT_USB_Device_ControlRequest` (lines 243-314). -/
def EVENT_USB_Device_ControlRequest (cfg : Config) (req : ControlRequest) (s : State) : State :=
  match req with
  | .HID_REQ_GetReport =>
    clearReportOut cfg { s with controlSent := s.controlSent ++ [s.HIDReportOutData] }
  | .HID_REQ_SetReport report =>
    ProcessHIDReport ReportBuffer.HIDReportInData
      { s with HIDReportInData := readStream s.HIDReportInData report }
  | .CDC_REQ_GetLineEncoding =>
    { s with controlSent := s.controlSent ++ [s.LineEncodingData.bytes] }
  | .CDC_REQ_SetLineEncoding encoding => { s with LineEncodingData := encoding }
  | .CDC_REQ_SetControlLineState => s
  | .other => s

/-- The function `EVENT_USB_Device_ConfigurationChanged` (lines 214-237), as far as it touches
the variables of this file: the baud rate is reset. -/
def EVENT_USB_Device_ConfigurationChanged (s : State) : State :=
  { s with LineEncodingData := { s.LineEncodingData with BaudRateBPS := 0 } }

/-- What the USB stack reports during one call of `USB_USBTask`. -/
inductive UsbEvent where
  | configurationChanged
  | controlRequest (req : ControlRequest)
deriving DecidableEq

/-- The call `USB_USBTask()` (line 173): the library runs the event handlers of this file for
the events the host caused. -/
def USB_USBTask (cfg : Config) (events : List UsbEvent) (s : State) : State :=
  events.foldl
    (fun st e =>
      match e with
      | .configurationChanged => EVENT_USB_Device_ConfigurationChanged st
      | .controlRequest req => EVENT_USB_Device_ControlRequest cfg req st)
    s

/-! ## The main loop (lines 85-175) -/

/-- What the host and the USB hardware present during one iteration of the main loop. -/
structure HostStep where
  /-- `USB_DeviceState == DEVICE_STATE_Configured`. -/
  configured : Bool
  /-- The packet waiting in the serial RX endpoint, if any. -/
  serialReceived : Option (List Nat)
  /-- The report waiting in the HID OUT endpoint, if any. -/
  hidReceived : Option (List Nat)
  /-- `Endpoint_IsINReady()` on the HID IN endpoint. -/
  hidInReady : Bool
  /-- The events handled inside `USB_USBTask()`. -/
  usbEvents : List UsbEvent
deriving DecidableEq

/-- One iteration of the `for (;;)` loop of `main` (lines 87-174). -/
def mainLoopIteration (cfg : Config) (h : HostStep) (s : State) : Option State :=
  match CDC_Task cfg h.configured h.serialReceived (schedulerStep cfg s) with
  | none => none
  | some s2 =>
    let s3 := HID_Task cfg h.configured h.hidReceived h.hidInReady s2
    let s4 := USB_USBTask cfg h.usbEvents s3
    some { s4 with tickCounter := (s4.tickCounter + 1) % 4294967296 }

/-- The main loop run for one iteration per element of `hs`, starting in `s`. -/
def run (cfg : Config) : List HostStep → State → Option State
  | [], s => some s
  | h :: hs, s =>
    match mainLoopIteration cfg h s with
    | none => none
    | some s1 => run cfg hs s1

/-! ## Specification-level definitions -/

/-- The ring buffer after `m` bytes were removed from its front. -/
def RingBuffer.dropFront : Nat → RingBuffer → RingBuffer
  | 0, rb => rb
  | m + 1, rb =>
    RingBuffer.dropFront m { rb with head := (rb.head + 1) % rb.capacity, count := rb.count - 1 }

/-- The number of bytes the outbound phase of `CDC_Task` takes out of the outbound ring buffer:
none while the baud rate is zero, otherwise at most one endpoint bank. -/
def drainCount (cfg : Config) (s : State) : Nat :=
  if s.LineEncodingData.BaudRateBPS = 0 then 0
  else min s.HostTXSerial_Buffer.count cfg.CDC_TXRX_EPSIZE

/-- The function `CDC_Task` called `k` times in a row on a configured device while no packet
arrives from the host. -/
def drainCalls (cfg : Config) : Nat → State → Option State
  | 0, s => some s
  | k + 1, s =>
    match CDC_Task cfg true none s with
    | none => none
    | some s1 => drainCalls cfg k s1

/-- The program variables that the serial task does not write. -/
def State.sameOutsideSerial (s s' : State) : Prop :=
  s'.LineEncodingData = s.LineEncodingData ∧ s'.HIDReportInData = s.HIDReportInData ∧
    s'.HIDReportOutData = s.HIDReportOutData ∧ s'.tickCounter = s.tickCounter ∧
    s'.outputCounter = s.outputCounter ∧ s'.HostSerialLocalEcho = s.HostSerialLocalEcho

/-- A configuration for concrete evaluations: 9-byte reports (the cells the scheduler writes),
16-byte serial endpoints, report identifiers 1, 2, 3, and a layout in which the byte behind
`HIDReportOutData` belongs to no variable of the file. -/
def exampleConfig : Config :=
  { GENERIC_REPORT_SIZE := 9, CDC_TXRX_EPSIZE := 16, HID_REPORTID_MouseReport := 1,
    HID_REPORTID_KeyboardReport := 2, HID_REPORTID_JoystickReport := 3,
    strayWrite := fun _ n => n }

/-- A configuration like `exampleConfig` in which the byte behind `HIDReportOutData` is the
low byte of `tickCounter`. -/
def tickNeighbourConfig : Config :=
  { exampleConfig with
    strayWrite := fun _ n => { n with tickCounter := n.tickCounter - n.tickCounter % 256 } }

/-- The state of `exampleConfig` at tick 1000 with the port opened at 9600 baud, before the
scheduler runs. -/
def openPortState : State :=
  { initialState exampleConfig with
    tickCounter := 1000
    LineEncodingData := { BaudRateBPS := 9600, CharFormat := 0, ParityType := 0, DataBits := 8 } }

/-- The state `openPortState` after the scheduler step: the tick message is queued. -/
def tickedState : State := schedulerStep exampleConfig openPortState

/-- The state `openPortState` holding a pending keyboard report instead of all zeroes. -/
def pendingReportState : State :=
  { openPortState with HIDReportOutData := [2, 0, 0, 4, 0, 0, 0, 0, 0] }

/-- A host that never attaches: the device is not configured, nothing arrives, no event. -/
def silentHost : HostStep :=
  { configured := false, serialReceived := none, hidReceived := none, hidInReady := false,
    usbEvents := [] }

/-- The number of main-loop iterations, starting with the one that runs at tick counter `t`,
that come before the next iteration whose scheduler step emits a tick message; it is 0 when
the iteration at `t` emits one. The counter wraps from 4294967295 to 0, and 4294961000 is the
last tick-message value before the wrap. -/
def iterationsUntilTickMessage (t : Nat) : Nat :=
  if t ≤ 4294961000 then (11000 - t % 10000) % 10000 else 4294967296 - t + 1000

/-- The drain budget at tick counter `t`: the largest number of queued bytes from which
draining one endpoint bank per iteration still leaves 8 free slots in the 128-byte outbound
ring buffer when the next tick message is due. -/
def drainBudget (cfg : Config) (t : Nat) : Nat :=
  120 + cfg.CDC_TXRX_EPSIZE * iterationsUntilTickMessage t

/-- The host behaviours that keep the outbound ring buffer drainable. In every iteration,
with `budget` the drain budget of the following iteration: when `CDC_Task` reads a packet
(device configured, packet waiting), the packet fits behind what the outbound phase left and
leaves at most `budget` bytes queued; otherwise the port is open (device configured, baud rate
nonzero) unless at most `budget` bytes are queued when `CDC_Task` runs. -/
def pacedHost (cfg : Config) : State → List HostStep → Bool
  | _, [] => true
  | s, h :: hs =>
    (match h.configured, h.serialReceived with
      | true, some packet =>
        decide ((schedulerStep cfg s).HostTXSerial_Buffer.count -
            drainCount cfg (schedulerStep cfg s) + packet.length ≤
          min (schedulerStep cfg s).HostTXSerial_Buffer.capacity
            (drainBudget cfg ((s.tickCounter + 1) % 4294967296)))
      | _, _ =>
        decide ((schedulerStep cfg s).HostTXSerial_Buffer.count ≤
            drainBudget cfg ((s.tickCounter + 1) % 4294967296)) ||
          (h.configured && decide (s.LineEncodingData.BaudRateBPS ≠ 0))) &&
      (match mainLoopIteration cfg h s with
        | none => true
        | some s1 => pacedHost cfg s1 hs)

/-- The layout assumption: no byte written beyond the end of `HIDReportOutData` belongs to
the outbound ring buffer (its control structure or its data array), to `tickCounter` or to
`HostSerialLocalEcho`. -/
def StrayByteHarmless (cfg : Config) : Prop :=
  ∀ (offset : Nat) (n : Neighbours),
    (cfg.strayWrite offset n).HostTXSerial_Buffer = n.HostTXSerial_Buffer ∧
      (cfg.strayWrite offset n).tickCounter = n.tickCounter ∧
      (cfg.strayWrite offset n).HostSerialLocalEcho = n.HostSerialLocalEcho

/-- The invariant of the main loop under `pacedHost`: local echo is on, the report array has
its declared length, the outbound ring buffer is well formed with capacity 128, and its count
is within the drain budget. -/
def TickInvariant (cfg : Config) (s : State) : Prop :=
  s.HostTXSerial_Buffer.WF ∧ s.HostTXSerial_Buffer.capacity = 128 ∧
    s.tickCounter < 4294967296 ∧ s.HostSerialLocalEcho = true ∧
    s.HIDReportOutData.length = cfg.GENERIC_REPORT_SIZE ∧
    s.HostTXSerial_Buffer.count ≤ drainBudget cfg s.tickCounter

/-- An iteration on an open port: the device is configured, the HID IN endpoint is ready,
nothing arrives. -/
def pollingStep : HostStep :=
  { configured := true, serialReceived := none, hidReceived := none, hidInReady := true,
    usbEvents := [] }

/-- The iteration in which the host opens the port at 9600 baud. -/
def openingStep : HostStep :=
  { configured := true, serialReceived := none, hidReceived := none, hidInReady := false,
    usbEvents := [UsbEvent.controlRequest (ControlRequest.CDC_REQ_SetLineEncoding
      { BaudRateBPS := 9600, CharFormat := 0, ParityType := 0, DataBits := 8 })] }

/-- A host that stays away for 1001 iterations, so that the tick message of tick 1000 is
queued on a closed port, then opens the port, polls twice, which drains that message, and
finally sends the two bytes "hi". -/
def lateOpeningHost : List HostStep :=
  List.replicate 1001 silentHost ++ [openingStep, pollingStep, pollingStep,
    { pollingStep with serialReceived := some [104, 105] }]

set_option maxRecDepth 8192

/-! ## Ring buffer lemmas -/

theorem readFrom_length (st : List Nat) (cap : Nat) :
    ∀ n h, (readFrom st cap h n).length = n := by
  intro n
  induction n with
  | zero => intro h; rfl
  | succ n ih => intro h; simp [readFrom, ih]

theorem succ_window_ne (h n cap : Nat) (hh : h < cap) (hn : n + 1 < cap) :
    (h + (n + 1)) % cap ≠ h := by
  by_cases hlt : h + (n + 1) < cap
  · rw [Nat.mod_eq_of_lt hlt]; omega
  · have h2 : h + (n + 1) - cap < cap := by omega
    rw [Nat.mod_eq_sub_mod (by omega), Nat.mod_eq_of_lt h2]; omega

/-- Writing the cell just behind a read window appends the written byte to what is read. -/
theorem readFrom_set_behind (st : List Nat) (cap b : Nat) (hlen : st.length = cap) :
    ∀ n h, h < cap → n < cap →
      readFrom (st.set ((h + n) % cap) b) cap h (n + 1) = readFrom st cap h n ++ [b] := by
  intro n
  induction n with
  | zero =>
    intro h hh _
    have : h < st.length := by omega
    simp [readFrom, Nat.mod_eq_of_lt hh, List.getD_eq_getElem?_getD, this]
  | succ n ih =>
    intro h hh hn
    have hne : (h + (n + 1)) % cap ≠ h := succ_window_ne h n cap hh hn
    have hlt : (h + 1) % cap < cap := Nat.mod_lt _ (by omega)
    have hidx : ((h + 1) % cap + n) % cap = (h + (n + 1)) % cap := by
      rw [Nat.mod_add_mod]; congr 1; omega
    have ih2 := ih ((h + 1) % cap) hlt (by omega)
    rw [hidx] at ih2
    rw [readFrom, ih2]
    simp [readFrom, List.getD_eq_getElem?_getD, List.getElem?_set_ne hne]

theorem RingBuffer.insert_contents (rb : RingBuffer) (b : Nat) (hwf : rb.WF)
    (hfree : rb.count < rb.capacity) :
    (RingBuffer_Insert rb b).contents = rb.contents ++ [b] := by
  obtain ⟨hlen, hhead, _, htail⟩ := hwf
  simp only [RingBuffer_Insert, RingBuffer.contents, htail]
  exact readFrom_set_behind rb.storage rb.capacity b hlen rb.count rb.head hhead hfree

theorem RingBuffer.insert_wf (rb : RingBuffer) (b : Nat) (hwf : rb.WF)
    (hfree : rb.count < rb.capacity) : (RingBuffer_Insert rb b).WF := by
  obtain ⟨hlen, hhead, _, htail⟩ := hwf
  refine ⟨by simp [RingBuffer_Insert, hlen], hhead, hfree, ?_⟩
  simp only [RingBuffer_Insert, htail]
  rw [Nat.mod_add_mod]; congr 1

theorem RingBuffer.remove_spec (rb : RingBuffer) (hc : rb.count ≠ 0) :
    RingBuffer_Remove rb = some (rb.storage.getD rb.head 0, RingBuffer.dropFront 1 rb) ∧
      rb.contents = rb.storage.getD rb.head 0 :: (RingBuffer.dropFront 1 rb).contents := by
  constructor
  · simp [RingBuffer_Remove, hc, RingBuffer.dropFront]
  · obtain ⟨n, hn⟩ := Nat.exists_eq_succ_of_ne_zero hc
    simp [RingBuffer.contents, RingBuffer.dropFront, hn, readFrom]

theorem RingBuffer.dropFront_succ (m : Nat) (rb : RingBuffer) :
    RingBuffer.dropFront (m + 1) rb = RingBuffer.dropFront m (RingBuffer.dropFront 1 rb) := rfl

theorem RingBuffer.dropFront_count : ∀ (m : Nat) (rb : RingBuffer),
    (RingBuffer.dropFront m rb).count = rb.count - m := by
  intro m
  induction m with
  | zero => intro rb; rfl
  | succ m ih => intro rb; rw [RingBuffer.dropFront, ih]; simp; omega

theorem RingBuffer.dropFront_capacity : ∀ (m : Nat) (rb : RingBuffer),
    (RingBuffer.dropFront m rb).capacity = rb.capacity := by
  intro m
  induction m with
  | zero => intro rb; rfl
  | succ m ih => intro rb; rw [RingBuffer.dropFront, ih]

theorem RingBuffer.dropFront_contents : ∀ (m : Nat) (rb : RingBuffer), m ≤ rb.count →
    (RingBuffer.dropFront m rb).contents = rb.contents.drop m := by
  intro m
  induction m with
  | zero => intro rb _; rfl
  | succ m ih =>
    intro rb hm
    have hc : rb.count ≠ 0 := by omega
    have h1 := (RingBuffer.remove_spec rb hc).2
    rw [RingBuffer.dropFront_succ, ih, h1]
    · rfl
    · rw [RingBuffer.dropFront_count]; omega

theorem RingBuffer.dropFront_wf : ∀ (m : Nat) (rb : RingBuffer), m ≤ rb.count → rb.WF →
    (RingBuffer.dropFront m rb).WF := by
  intro m
  induction m with
  | zero => intro rb _ h; exact h
  | succ m ih =>
    intro rb hm hwf
    rw [RingBuffer.dropFront]
    apply ih
    · simp; omega
    · obtain ⟨hlen, hhead, hcnt, htail⟩ := hwf
      refine ⟨hlen, Nat.mod_lt _ (by omega), ?_, ?_⟩
      · simp; omega
      · simp only [htail]
        rw [Nat.mod_add_mod]; congr 1; omega

/-! ## The drain loop -/

theorem drainLoop_spec (epsize : Nat) : ∀ (bc i : Nat) (s : State), i + bc ≤ 65536 →
    bc ≤ s.HostTXSerial_Buffer.count →
    drainLoop epsize i bc s = some
      { s with
        HostTXSerial_Buffer := RingBuffer.dropFront (min bc (epsize - i)) s.HostTXSerial_Buffer
        cdcTxBank := s.cdcTxBank ++ s.HostTXSerial_Buffer.contents.take (min bc (epsize - i)) } := by
  intro bc
  induction bc with
  | zero => intro i s _ _; simp [drainLoop, RingBuffer.dropFront]
  | succ bc ih =>
    intro i s hi hc
    by_cases hlt : i < epsize
    · have hne : s.HostTXSerial_Buffer.count ≠ 0 := by omega
      obtain ⟨hrem, hcont⟩ := RingBuffer.remove_spec s.HostTXSerial_Buffer hne
      have hi2 : (i + 1) % 65536 + bc ≤ 65536 := by omega
      have hm : min (bc + 1) (epsize - i) = min bc (epsize - (i + 1) % 65536) + 1 := by
        rcases Nat.eq_zero_or_pos bc with h0 | hpos
        · subst h0; simp; omega
        · have : (i + 1) % 65536 = i + 1 := Nat.mod_eq_of_lt (by omega)
          rw [this]; omega
      rw [drainLoop, if_pos hlt, hrem]
      simp only
      rw [ih _ _ hi2 (by simp [RingBuffer.dropFront_count]; omega), hm,
        RingBuffer.dropFront_succ (min bc (epsize - (i + 1) % 65536)), hcont]
      simp [List.append_assoc]
    · have hm : min (bc + 1) (epsize - i) = 0 := by omega
      rw [drainLoop, if_neg hlt, hm]
      simp [RingBuffer.dropFront]

theorem Endpoint_ClearIN_txStream (s : State) : (Endpoint_ClearIN s).txStream = s.txStream := by
  simp [Endpoint_ClearIN, State.txStream]

theorem CDC_Task_outbound_spec (cfg : Config) (s : State)
    (hc : s.HostTXSerial_Buffer.count < 65536) :
    ∃ s', CDC_Task_outbound cfg s = some s' ∧
      s'.HostTXSerial_Buffer = RingBuffer.dropFront (drainCount cfg s) s.HostTXSerial_Buffer ∧
      s'.HostRXSerial_Buffer = s.HostRXSerial_Buffer ∧
      s'.txStream = s.txStream ++ s.HostTXSerial_Buffer.contents.take (drainCount cfg s) ∧
      s.sameOutsideSerial s' := by
  have hmod : s.HostTXSerial_Buffer.count % 65536 = s.HostTXSerial_Buffer.count :=
    Nat.mod_eq_of_lt hc
  unfold CDC_Task_outbound
  simp only [RingBuffer_GetCount, hmod]
  by_cases hcond : s.HostTXSerial_Buffer.count ≠ 0 ∧ s.LineEncodingData.BaudRateBPS ≠ 0
  · rw [if_pos hcond, drainLoop_spec _ _ 0 s (by omega) (le_refl _)]
    have hd : drainCount cfg s = min s.HostTXSerial_Buffer.count cfg.CDC_TXRX_EPSIZE := by
      simp [drainCount, hcond.2]
    simp only [Nat.sub_zero, ← hd]
    refine ⟨_, rfl, ?_, ?_, ?_, ?_⟩
    · split <;> simp [Endpoint_ClearIN]
    · split <;> simp [Endpoint_ClearIN]
    · split <;> simp [Endpoint_ClearIN, State.txStream, List.append_assoc]
    · split <;> simp [Endpoint_ClearIN, State.sameOutsideSerial]
  · rw [if_neg hcond]
    have hd : drainCount cfg s = 0 := by
      unfold drainCount
      by_cases hb : s.LineEncodingData.BaudRateBPS = 0
      · simp [hb]
      · have : s.HostTXSerial_Buffer.count = 0 := by
          by_contra h0; exact hcond ⟨h0, hb⟩
        simp [hb, this]
    refine ⟨s, rfl, ?_, rfl, ?_, ?_⟩
    · simp [hd, RingBuffer.dropFront]
    · simp [hd]
    · simp [State.sameOutsideSerial]

/-! ## The receive loop -/

theorem receiveLoop_echo : ∀ (packet : List Nat) (s : State), s.HostSerialLocalEcho = true →
    s.HostTXSerial_Buffer.WF →
    s.HostTXSerial_Buffer.count + packet.length ≤ s.HostTXSerial_Buffer.capacity →
    (packet.foldl receiveByte s).HostTXSerial_Buffer.contents =
        s.HostTXSerial_Buffer.contents ++ packet ∧
      (packet.foldl receiveByte s).HostTXSerial_Buffer.WF ∧
      (packet.foldl receiveByte s).HostTXSerial_Buffer.count =
        s.HostTXSerial_Buffer.count + packet.length ∧
      (packet.foldl receiveByte s).HostTXSerial_Buffer.capacity =
        s.HostTXSerial_Buffer.capacity ∧
      (packet.foldl receiveByte s).txStream = s.txStream ∧
      s.sameOutsideSerial (packet.foldl receiveByte s) := by
  intro packet
  induction packet with
  | nil => intro s _ hwf _; simp [hwf, State.sameOutsideSerial]
  | cons b rest ih =>
    intro s hecho hwf hfree
    simp only [List.length_cons] at hfree
    have hlt : s.HostTXSerial_Buffer.count < s.HostTXSerial_Buffer.capacity := by omega
    have hstep : receiveByte s b =
        { s with
          HostRXSerial_Buffer := RingBuffer_Insert s.HostRXSerial_Buffer b
          HostTXSerial_Buffer := RingBuffer_Insert s.HostTXSerial_Buffer b } := by
      simp [receiveByte, hecho]
    have h1 := RingBuffer.insert_contents _ b hwf hlt
    have h2 := RingBuffer.insert_wf _ b hwf hlt
    have hcount : (RingBuffer_Insert s.HostTXSerial_Buffer b).count =
        s.HostTXSerial_Buffer.count + 1 := rfl
    have hcap : (RingBuffer_Insert s.HostTXSerial_Buffer b).capacity =
        s.HostTXSerial_Buffer.capacity := rfl
    have e1 : (receiveByte s b).HostTXSerial_Buffer =
        RingBuffer_Insert s.HostTXSerial_Buffer b := by rw [hstep]
    have e2 : (receiveByte s b).HostSerialLocalEcho = true := by rw [hstep]; exact hecho
    have e3 : (receiveByte s b).txStream = s.txStream := by rw [hstep]; rfl
    have e4 : s.sameOutsideSerial (receiveByte s b) := by
      rw [hstep]; simp [State.sameOutsideSerial]
    obtain ⟨a1, a2, a3, a4, a5, a6⟩ := ih (receiveByte s b) e2
      (by rw [e1]; exact h2) (by rw [e1, hcount, hcap]; omega)
    rw [e1] at a1 a3 a4
    rw [List.foldl_cons]
    refine ⟨?_, a2, ?_, ?_, ?_, ?_⟩
    · rw [a1, h1]; simp
    · rw [a3, hcount, List.length_cons]; omega
    · rw [a4, hcap]
    · rw [a5, e3]
    · obtain ⟨b1, b2, b3, b4, b5, b6⟩ := e4
      obtain ⟨c1, c2, c3, c4, c5, c6⟩ := a6
      exact ⟨c1.trans b1, c2.trans b2, c3.trans b3, c4.trans b4, c5.trans b5, c6.trans b6⟩

theorem take_min_length (l : List Nat) (n : Nat) : l.take (min l.length n) = l.take n := by
  by_cases h : l.length ≤ n
  · rw [Nat.min_eq_left h, List.take_of_length_le (le_refl _), List.take_of_length_le h]
  · rw [Nat.min_eq_right (by omega)]

theorem drop_min_length (l : List Nat) (n : Nat) : l.drop (min l.length n) = l.drop n := by
  by_cases h : l.length ≤ n
  · rw [Nat.min_eq_left h, List.drop_of_length_le (le_refl _), List.drop_of_length_le h]
  · rw [Nat.min_eq_right (by omega)]

theorem RingBuffer.contents_length (rb : RingBuffer) : rb.contents.length = rb.count :=
  readFrom_length _ _ _ _

theorem drainCount_le (cfg : Config) (s : State) :
    drainCount cfg s ≤ s.HostTXSerial_Buffer.count := by
  unfold drainCount; split <;> omega

theorem drainCalls_spec (cfg : Config) : ∀ (k : Nat) (s : State),
    s.HostTXSerial_Buffer.count < 65536 → s.LineEncodingData.BaudRateBPS ≠ 0 →
    ∃ s', drainCalls cfg k s = some s' ∧
      s'.txStream = s.txStream ++ s.HostTXSerial_Buffer.contents.take (k * cfg.CDC_TXRX_EPSIZE) ∧
      s'.HostTXSerial_Buffer.contents =
        s.HostTXSerial_Buffer.contents.drop (k * cfg.CDC_TXRX_EPSIZE) := by
  intro k
  induction k with
  | zero => intro s _ _; exact ⟨s, rfl, by simp, by simp⟩
  | succ k ih =>
    intro s hc hb
    obtain ⟨s1, h1, hTX, _, hstream, hsame⟩ := CDC_Task_outbound_spec cfg s hc
    have hd : drainCount cfg s =
        min s.HostTXSerial_Buffer.contents.length cfg.CDC_TXRX_EPSIZE := by
      simp [drainCount, hb, RingBuffer.contents_length]
    have hcont : s1.HostTXSerial_Buffer.contents =
        s.HostTXSerial_Buffer.contents.drop cfg.CDC_TXRX_EPSIZE := by
      rw [hTX, RingBuffer.dropFront_contents _ _ (drainCount_le cfg s), hd, drop_min_length]
    have hc1 : s1.HostTXSerial_Buffer.count < 65536 := by
      rw [hTX, RingBuffer.dropFront_count]; omega
    have hb1 : s1.LineEncodingData.BaudRateBPS ≠ 0 := by rw [hsame.1]; exact hb
    obtain ⟨s2, h2, hstream2, hcont2⟩ := ih s1 hc1 hb1
    refine ⟨s2, ?_, ?_, ?_⟩
    · simp [drainCalls, CDC_Task, h1, CDC_Task_inbound, h2]
    · rw [hstream2, hstream, hcont, hd, take_min_length, List.append_assoc,
        Nat.succ_mul, Nat.add_comm, List.take_add]
    · rw [hcont2, hcont, List.drop_drop, Nat.succ_mul, Nat.add_comm]

/-! ## Claims about the serial task -/

/-- C7: on a configured device whose outbound ring buffer holds `c` bytes (a count that fits
the 16-bit `BufferCount`), the outbound phase of `CDC_Task` writes exactly the first
`min c CDC_TXRX_EPSIZE` bytes of the buffer, in FIFO order, to the transmit endpoint and removes
exactly those bytes when `c > 0` and the baud rate is nonzero; it leaves the whole state
untouched when `c = 0` or the baud rate is zero. The phase is the first thing `CDC_Task` does
on a configured device. -/
theorem C7_outbound_phase_drains_one_bank (cfg : Config) (s : State)
    (hc : s.HostTXSerial_Buffer.count < 65536) :
    (s.HostTXSerial_Buffer.count ≠ 0 ∧ s.LineEncodingData.BaudRateBPS ≠ 0 →
      ∃ s', CDC_Task_outbound cfg s = some s' ∧
        s'.txStream = s.txStream ++ s.HostTXSerial_Buffer.contents.take
          (min s.HostTXSerial_Buffer.count cfg.CDC_TXRX_EPSIZE) ∧
        s'.HostTXSerial_Buffer.contents = s.HostTXSerial_Buffer.contents.drop
          (min s.HostTXSerial_Buffer.count cfg.CDC_TXRX_EPSIZE) ∧
        s'.HostTXSerial_Buffer.count + min s.HostTXSerial_Buffer.count cfg.CDC_TXRX_EPSIZE =
          s.HostTXSerial_Buffer.count) ∧
    (s.HostTXSerial_Buffer.count = 0 ∨ s.LineEncodingData.BaudRateBPS = 0 →
      CDC_Task_outbound cfg s = some s) ∧
    (∀ received, CDC_Task cfg true received s =
      (CDC_Task_outbound cfg s).map (CDC_Task_inbound received)) := by
  refine ⟨?_, ?_, ?_⟩
  · rintro ⟨_, hb⟩
    obtain ⟨s1, h1, hTX, _, hstream, _⟩ := CDC_Task_outbound_spec cfg s hc
    have hd : drainCount cfg s = min s.HostTXSerial_Buffer.count cfg.CDC_TXRX_EPSIZE := by
      simp [drainCount, hb]
    rw [hd] at hTX hstream
    refine ⟨s1, h1, hstream, ?_, ?_⟩
    · rw [hTX, RingBuffer.dropFront_contents _ _ (Nat.min_le_left _ _)]
    · rw [hTX, RingBuffer.dropFront_count]; omega
  · intro h
    have hmod : s.HostTXSerial_Buffer.count % 65536 = s.HostTXSerial_Buffer.count :=
      Nat.mod_eq_of_lt hc
    unfold CDC_Task_outbound
    simp only [RingBuffer_GetCount, hmod]
    rw [if_neg]
    rcases h with h | h <;> simp [h]
  · intro received
    unfold CDC_Task
    cases CDC_Task_outbound cfg s <;> simp

/-- Witness of C7 on the state holding the queued tick message of tick 1000: the eight bytes
leave in one bank and the buffer is empty afterwards. -/
theorem C7_outbound_phase_drains_one_bank_witness :
    tickedState.HostTXSerial_Buffer.count < 65536 ∧
      (CDC_Task_outbound exampleConfig tickedState).map State.txStream =
        some [84, 105, 99, 107, 32, 48, 10, 13] ∧
      (CDC_Task_outbound exampleConfig tickedState).map
        (fun s => s.HostTXSerial_Buffer.contents) = some [] := by
  obtain ⟨s', h1, h2, h3, _⟩ :=
    (C7_outbound_phase_drains_one_bank exampleConfig tickedState (by decide)).1
      ⟨by decide, by decide⟩
  refine ⟨by decide, ?_, ?_⟩
  · rw [h1, Option.map_some', h2]; rfl
  · rw [h1, Option.map_some', h3]; rfl

/-- C5: `CDC_Task` never calls `RingBuffer_Remove` on an empty outbound ring buffer (the model
yields `none` exactly when it would): the call always completes, the drain loop performs `m`
removes with `m` at most the count read by `RingBuffer_GetCount` at the start, the count drops
by exactly `m`, and nothing is removed when that count is 0. -/
theorem C5_remove_only_when_nonempty (cfg : Config) (s : State) (configured : Bool)
    (received : Option (List Nat)) :
    (CDC_Task cfg configured received s).isSome = true ∧
    ∃ m s1, CDC_Task_outbound cfg s = some s1 ∧
      m ≤ RingBuffer_GetCount s.HostTXSerial_Buffer ∧
      s1.HostTXSerial_Buffer = RingBuffer.dropFront m s.HostTXSerial_Buffer ∧
      s1.HostTXSerial_Buffer.count + m = s.HostTXSerial_Buffer.count ∧
      (RingBuffer_GetCount s.HostTXSerial_Buffer = 0 → s1 = s) := by
  have hle : s.HostTXSerial_Buffer.count % 65536 ≤ s.HostTXSerial_Buffer.count :=
    Nat.mod_le _ _
  have hlt : s.HostTXSerial_Buffer.count % 65536 < 65536 := Nat.mod_lt _ (by decide)
  have key : ∃ m s1, CDC_Task_outbound cfg s = some s1 ∧
      m ≤ RingBuffer_GetCount s.HostTXSerial_Buffer ∧
      s1.HostTXSerial_Buffer = RingBuffer.dropFront m s.HostTXSerial_Buffer ∧
      s1.HostTXSerial_Buffer.count + m = s.HostTXSerial_Buffer.count ∧
      (RingBuffer_GetCount s.HostTXSerial_Buffer = 0 → s1 = s) := by
    unfold CDC_Task_outbound
    simp only [RingBuffer_GetCount]
    by_cases hcond : s.HostTXSerial_Buffer.count % 65536 ≠ 0 ∧
        s.LineEncodingData.BaudRateBPS ≠ 0
    · rw [if_pos hcond, drainLoop_spec _ _ 0 s (by omega) hle]
      have hm : min (s.HostTXSerial_Buffer.count % 65536) (cfg.CDC_TXRX_EPSIZE - 0) ≤
          s.HostTXSerial_Buffer.count := le_trans (Nat.min_le_left _ _) hle
      refine ⟨min (s.HostTXSerial_Buffer.count % 65536) (cfg.CDC_TXRX_EPSIZE - 0), _, rfl,
        hm, ?_, ?_, ?_⟩
      · split <;> simp [Endpoint_ClearIN]
      · have hcnt := RingBuffer.dropFront_count
          (min (s.HostTXSerial_Buffer.count % 65536) (cfg.CDC_TXRX_EPSIZE - 0))
          s.HostTXSerial_Buffer
        split <;> simp only [Endpoint_ClearIN] <;> omega
      · intro h0; rw [h0] at hcond; exact absurd rfl hcond.1
    · rw [if_neg hcond]
      exact ⟨0, s, rfl, Nat.zero_le _, rfl, rfl, fun _ => rfl⟩
  refine ⟨?_, key⟩
  obtain ⟨_, s1, h1, _⟩ := key
  unfold CDC_Task
  cases configured <;> simp [h1]

/-- C6: with local echo enabled on a configured device, a packet received while the outbound
ring buffer (well formed, capacity below 2^16) has room for it once the outbound phase has
run leaves the buffer holding its not yet drained bytes followed by the packet, unmodified and
in order; the bytes written to the transmit endpoint in that call are old bytes only, the same
as when no packet arrives; and while the port is open, `k` later calls emit the first
`k * CDC_TXRX_EPSIZE` bytes of that queue, so the packet leaves in the received order. -/
theorem C6_local_echo_queued_in_order (cfg : Config) (s : State) (packet : List Nat)
    (hecho : s.HostSerialLocalEcho = true) (hwf : s.HostTXSerial_Buffer.WF)
    (hcap : s.HostTXSerial_Buffer.capacity < 65536)
    (hfree : s.HostTXSerial_Buffer.count - drainCount cfg s + packet.length ≤
      s.HostTXSerial_Buffer.capacity) :
    ∃ s', CDC_Task cfg true (some packet) s = some s' ∧
      s'.HostTXSerial_Buffer.contents =
        s.HostTXSerial_Buffer.contents.drop (drainCount cfg s) ++ packet ∧
      s'.txStream = s.txStream ++ s.HostTXSerial_Buffer.contents.take (drainCount cfg s) ∧
      (CDC_Task cfg true none s).map State.txStream = some s'.txStream ∧
      (s.LineEncodingData.BaudRateBPS ≠ 0 → ∀ k, ∃ s'', drainCalls cfg k s' = some s'' ∧
        s''.txStream = s'.txStream ++
          (s.HostTXSerial_Buffer.contents.drop (drainCount cfg s) ++ packet).take
            (k * cfg.CDC_TXRX_EPSIZE)) := by
  have hc : s.HostTXSerial_Buffer.count < 65536 := lt_of_le_of_lt hwf.2.2.1 hcap
  obtain ⟨s1, h1, hTX, _, hstream, hsame⟩ := CDC_Task_outbound_spec cfg s hc
  have hle := drainCount_le cfg s
  have hwf1 : s1.HostTXSerial_Buffer.WF := by
    rw [hTX]; exact RingBuffer.dropFront_wf _ _ hle hwf
  have hcount1 : s1.HostTXSerial_Buffer.count =
      s.HostTXSerial_Buffer.count - drainCount cfg s := by
    rw [hTX, RingBuffer.dropFront_count]
  have hcap1 : s1.HostTXSerial_Buffer.capacity = s.HostTXSerial_Buffer.capacity := by
    rw [hTX, RingBuffer.dropFront_capacity]
  have hcont1 : s1.HostTXSerial_Buffer.contents =
      s.HostTXSerial_Buffer.contents.drop (drainCount cfg s) := by
    rw [hTX, RingBuffer.dropFront_contents _ _ hle]
  have hecho1 : s1.HostSerialLocalEcho = true := by rw [hsame.2.2.2.2.2]; exact hecho
  obtain ⟨a1, a2, a3, a4, a5, a6⟩ := receiveLoop_echo packet s1 hecho1 hwf1
    (by rw [hcount1, hcap1]; exact hfree)
  refine ⟨packet.foldl receiveByte s1, ?_, ?_, ?_, ?_, ?_⟩
  · simp [CDC_Task, h1, CDC_Task_inbound]
  · rw [a1, hcont1]
  · rw [a5, hstream]
  · simp [CDC_Task, h1, CDC_Task_inbound, a5]
  · intro hb k
    have hb' : (packet.foldl receiveByte s1).LineEncodingData.BaudRateBPS ≠ 0 := by
      rw [a6.1, hsame.1]; exact hb
    have hc' : (packet.foldl receiveByte s1).HostTXSerial_Buffer.count < 65536 := by
      have := a2.2.2.1
      rw [a4, hcap1] at this
      omega
    obtain ⟨s2, h2, hstream2, _⟩ := drainCalls_spec cfg k _ hc' hb'
    exact ⟨s2, h2, by rw [hstream2, a1, hcont1]⟩

/-- Witness of C6: the two bytes "hi" arrive while the tick message of tick 1000 is queued;
the message is drained in that call and the two bytes stay queued in order. -/
theorem C6_local_echo_queued_in_order_witness :
    tickedState.HostSerialLocalEcho = true ∧ tickedState.HostTXSerial_Buffer.WF ∧
      tickedState.HostTXSerial_Buffer.capacity < 65536 ∧
      (CDC_Task exampleConfig true (some [104, 105]) tickedState).map
        (fun s => (s.HostTXSerial_Buffer.contents, s.txStream)) =
          some ([104, 105], [84, 105, 99, 107, 32, 48, 10, 13]) := by
  obtain ⟨s', h1, h2, h3, _⟩ :=
    C6_local_echo_queued_in_order exampleConfig tickedState [104, 105] (by decide) (by decide)
      (by decide) (by decide)
  refine ⟨by decide, by decide, by decide, ?_⟩
  rw [h1, Option.map_some', h2, h3]; rfl

/-! ## Claims about the scheduler -/

theorem insertAll_spec : ∀ (bytes : List Nat) (rb : RingBuffer), rb.WF →
    rb.count + bytes.length ≤ rb.capacity →
    (bytes.foldl RingBuffer_Insert rb).contents = rb.contents ++ bytes ∧
      (bytes.foldl RingBuffer_Insert rb).WF ∧
      (bytes.foldl RingBuffer_Insert rb).count = rb.count + bytes.length ∧
      (bytes.foldl RingBuffer_Insert rb).capacity = rb.capacity := by
  intro bytes
  induction bytes with
  | nil => intro rb hwf _; simp [hwf]
  | cons b rest ih =>
    intro rb hwf hfree
    simp only [List.length_cons] at hfree
    have hlt : rb.count < rb.capacity := by omega
    have hcount : (RingBuffer_Insert rb b).count = rb.count + 1 := rfl
    have hcap : (RingBuffer_Insert rb b).capacity = rb.capacity := rfl
    obtain ⟨a1, a2, a3, a4⟩ := ih (RingBuffer_Insert rb b) (RingBuffer.insert_wf rb b hwf hlt)
      (by rw [hcount, hcap]; omega)
    rw [List.foldl_cons]
    refine ⟨?_, a2, ?_, ?_⟩
    · rw [a1, RingBuffer.insert_contents rb b hwf hlt]; simp
    · rw [a3, hcount, List.length_cons]; omega
    · rw [a4, hcap]

theorem sub32_of_le (a b : Nat) (hb : b ≤ a) (ha : a < 4294967296) : sub32 a b = a - b := by
  unfold sub32
  have h1 : b % 4294967296 = b := Nat.mod_eq_of_lt (by omega)
  rw [h1]
  omega

theorem schedulerStep_tick (cfg : Config) (s : State) (ht : s.tickCounter % 10000 = 1000) :
    schedulerStep cfg s =
      { s with HostTXSerial_Buffer :=
          [84, 105, 99, 107, 32, toU8 (48 + ((sub32 s.tickCounter 1000) / 10000) % 10), 10,
            13].foldl RingBuffer_Insert s.HostTXSerial_Buffer } := by
  unfold schedulerStep
  rw [if_pos ht]
  rfl

/-- C1: for a 32-bit tick value `t` with `t mod 10000 = 1000` and a well-formed outbound ring
buffer with at least 8 free slots, the scheduler step appends exactly the 8 bytes
84, 105, 99, 107, 32, d, 10, 13 in that order, with `d = 48 + ((t - 1000) / 10000) mod 10`
(no wrap-around, since `t ≥ 1000`) and `48 ≤ d ≤ 57`; `t = 1000` gives 48 and `t = 11000`
gives 49; nothing else in the state changes. -/
theorem C1_tick_message_appended (cfg : Config) (s : State)
    (ht32 : s.tickCounter < 4294967296) (ht : s.tickCounter % 10000 = 1000)
    (hwf : s.HostTXSerial_Buffer.WF)
    (hfree : s.HostTXSerial_Buffer.count + 8 ≤ s.HostTXSerial_Buffer.capacity) :
    (schedulerStep cfg s).HostTXSerial_Buffer.contents =
        s.HostTXSerial_Buffer.contents ++
          [84, 105, 99, 107, 32, 48 + ((s.tickCounter - 1000) / 10000) % 10, 10, 13] ∧
      (schedulerStep cfg s).HostTXSerial_Buffer.count = s.HostTXSerial_Buffer.count + 8 ∧
      schedulerStep cfg s =
        { s with HostTXSerial_Buffer := (schedulerStep cfg s).HostTXSerial_Buffer } ∧
      1000 ≤ s.tickCounter ∧
      48 ≤ 48 + ((s.tickCounter - 1000) / 10000) % 10 ∧
      48 + ((s.tickCounter - 1000) / 10000) % 10 ≤ 57 ∧
      (s.tickCounter = 1000 → 48 + ((s.tickCounter - 1000) / 10000) % 10 = 48) ∧
      (s.tickCounter = 11000 → 48 + ((s.tickCounter - 1000) / 10000) % 10 = 49) := by
  have hge : 1000 ≤ s.tickCounter := by omega
  have hd : toU8 (48 + ((sub32 s.tickCounter 1000) / 10000) % 10) =
      48 + ((s.tickCounter - 1000) / 10000) % 10 := by
    rw [sub32_of_le _ _ hge ht32]; unfold toU8; omega
  have hstep := schedulerStep_tick cfg s ht
  rw [hd] at hstep
  obtain ⟨a1, _, a3, _⟩ := insertAll_spec
    [84, 105, 99, 107, 32, 48 + ((s.tickCounter - 1000) / 10000) % 10, 10, 13]
    s.HostTXSerial_Buffer hwf (by simpa using hfree)
  refine ⟨?_, ?_, ?_, hge, by omega, by omega, ?_, ?_⟩
  · rw [hstep]; exact a1
  · rw [hstep]; simpa using a3
  · rw [hstep]
  · intro h; rw [h]
  · intro h; rw [h]

/-- Witness of C1 at tick 11000 on the empty 128-byte buffer: the digit is '1'. -/
theorem C1_tick_message_appended_witness :
    (schedulerStep exampleConfig
        { initialState exampleConfig with tickCounter := 11000 }).HostTXSerial_Buffer.contents =
      [84, 105, 99, 107, 32, 49, 10, 13] :=
  (C1_tick_message_appended exampleConfig { initialState exampleConfig with tickCounter := 11000 }
    (by decide) (by decide) (by decide) (by decide)).1

/-- C9 (evaluation of the code): at tick 1000 the scheduler queues "Tick 0" followed by the
bytes 10 then 13, that is line feed then carriage return; the last two bytes inserted are not
carriage return (13) followed by line feed (10). -/
theorem C9_tick_message_ends_lf_then_cr :
    (schedulerStep exampleConfig openPortState).HostTXSerial_Buffer.contents =
        [84, 105, 99, 107, 32, 48, 10, 13] ∧
      ((schedulerStep exampleConfig openPortState).HostTXSerial_Buffer.contents.drop 6) =
        [10, 13] ∧
      ((schedulerStep exampleConfig openPortState).HostTXSerial_Buffer.contents.drop 6) ≠
        [13, 10] := by
  decide

theorem set_nine (l : List Nat) (hl : l.length = 9) (v0 v1 v2 v3 v4 v5 v6 v7 v8 : Nat) :
    ((((((((l.set 0 v0).set 1 v1).set 2 v2).set 3 v3).set 4 v4).set 5 v5).set 6 v6).set 7
      v7).set 8 v8 = [v0, v1, v2, v3, v4, v5, v6, v7, v8] := by
  match l, hl with
  | [_, _, _, _, _, _, _, _, _], _ => rfl

/-- C8: for a 32-bit tick value `t` with `t mod 10000 = 5000`, the scheduler step sets the
9-byte outbound HID report to `[KeyboardReportID, 0, 0, k, 0, 0, 0, 0, 0]` with
`k = 4 + ((t - 1000) / 10000) mod 26`, whatever the report held before; `4 ≤ k ≤ 29`, and for
`t = 5000 + 10000 * j` the key code is `4 + j mod 26`. -/
theorem C8_keyboard_press_report (cfg : Config) (s : State)
    (ht32 : s.tickCounter < 4294967296) (ht : s.tickCounter % 10000 = 5000)
    (hlen : s.HIDReportOutData.length = 9) :
    (schedulerStep cfg s).HIDReportOutData =
        [cfg.HID_REPORTID_KeyboardReport, 0, 0, 4 + ((s.tickCounter - 1000) / 10000) % 26,
          0, 0, 0, 0, 0] ∧
      4 ≤ 4 + ((s.tickCounter - 1000) / 10000) % 26 ∧
      4 + ((s.tickCounter - 1000) / 10000) % 26 ≤ 29 ∧
      (∀ j, s.tickCounter = 5000 + 10000 * j →
        4 + ((s.tickCounter - 1000) / 10000) % 26 = 4 + j % 26) := by
  have hge : 1000 ≤ s.tickCounter := by omega
  have hk : toU8 (4 + ((sub32 s.tickCounter 1000) / 10000) % 26) =
      4 + ((s.tickCounter - 1000) / 10000) % 26 := by
    rw [sub32_of_le _ _ hge ht32]; unfold toU8; omega
  refine ⟨?_, by omega, by omega, ?_⟩
  · unfold schedulerStep
    rw [if_neg (by omega), if_neg (by omega), if_pos ht, hk]
    exact set_nine _ hlen _ _ _ _ _ _ _ _ _
  · intro j hj
    have : (s.tickCounter - 1000) / 10000 = j := by omega
    rw [this]

/-- Witness of C8 at tick 265000 (`j = 26`): the key code is back at 4, the letter 'a', and
the mouse report that was pending is overwritten. -/
theorem C8_keyboard_press_report_witness :
    (schedulerStep exampleConfig
        { initialState exampleConfig with
          tickCounter := 265000
          HIDReportOutData := [1, 0, 10, 10, 255, 0, 0, 0, 0] }).HIDReportOutData =
      [2, 0, 0, 4, 0, 0, 0, 0, 0] :=
  (C8_keyboard_press_report exampleConfig
    { initialState exampleConfig with
      tickCounter := 265000
      HIDReportOutData := [1, 0, 10, 10, 255, 0, 0, 0, 0] }
    (by decide) (by decide) (by decide)).1

/-! ## Claims about the HID task -/

theorem memset_all (arr : List Nat) (n : Nat) (h : arr.length ≤ n) :
    memset arr 0 n = List.replicate arr.length 0 := by
  unfold memset
  rw [Nat.min_eq_right h, List.drop_of_length_le h, List.append_nil]

theorem memset_length (arr : List Nat) (v n : Nat) : (memset arr v n).length = arr.length := by
  unfold memset
  simp only [List.length_append, List.length_replicate, List.length_drop]
  omega

theorem strayFold_report (cfg : Config) : ∀ (offsets : List Nat) (s : State),
    (offsets.foldl (strayStore cfg) s).HIDReportOutData = s.HIDReportOutData ∧
      (offsets.foldl (strayStore cfg) s).hidInSent = s.hidInSent := by
  intro offsets
  induction offsets with
  | nil => intro s; exact ⟨rfl, rfl⟩
  | cons k rest ih =>
    intro s
    rw [List.foldl_cons]
    obtain ⟨h1, h2⟩ := ih (strayStore cfg s k)
    exact ⟨h1, h2⟩

theorem clearReportOut_report (cfg : Config) (s : State) :
    (clearReportOut cfg s).HIDReportOutData =
        memset s.HIDReportOutData 0 (cfg.GENERIC_REPORT_SIZE + 1) ∧
      (clearReportOut cfg s).hidInSent = s.hidInSent := by
  unfold clearReportOut
  obtain ⟨h1, h2⟩ := strayFold_report cfg
    ((memsetOffsets (cfg.GENERIC_REPORT_SIZE + 1)).filter
      (fun i => decide (s.HIDReportOutData.length ≤ i)))
    { s with
      HIDReportOutData := memset s.HIDReportOutData 0 (cfg.GENERIC_REPORT_SIZE + 1)
      outOfBounds := s.outOfBounds ++
        (memsetOffsets (cfg.GENERIC_REPORT_SIZE + 1)).filter
          (fun i => decide (s.HIDReportOutData.length ≤ i)) }
  exact ⟨h1, h2⟩

theorem HID_Task_receive_keeps_out (cfg : Config) (received : Option (List Nat)) (s : State) :
    HID_Task cfg true received true s =
      clearReportOut cfg
        { (HID_Task cfg true received false s) with
          hidInSent := s.hidInSent ++ [s.HIDReportOutData] } ∧
    (HID_Task cfg true received false s).HIDReportOutData = s.HIDReportOutData ∧
    (HID_Task cfg true received false s).hidInSent = s.hidInSent := by
  unfold HID_Task
  cases received with
  | none => simp
  | some packet =>
    by_cases hp : packet.length ≠ 0
    · simp [hp, ProcessHIDReport]
    · simp [hp]

/-- C3: on a configured device whose HID IN endpoint is ready, `HID_Task` writes the current
contents of the outbound report array (of its declared length `GENERIC_REPORT_SIZE`) to the
endpoint and afterwards every byte of the array is zero; a second `HID_Task` send right after
it transmits an all-zero report, so the endpoint receives the original report followed by an
all-zero report. -/
theorem C3_report_sent_then_zeroed (cfg : Config) (s : State)
    (received received2 : Option (List Nat))
    (hlen : s.HIDReportOutData.length = cfg.GENERIC_REPORT_SIZE) :
    (HID_Task cfg true received true s).hidInSent = s.hidInSent ++ [s.HIDReportOutData] ∧
      (HID_Task cfg true received true s).HIDReportOutData =
        List.replicate cfg.GENERIC_REPORT_SIZE 0 ∧
      (∀ b ∈ (HID_Task cfg true received true s).HIDReportOutData, b = 0) ∧
      (HID_Task cfg true received2 true (HID_Task cfg true received true s)).hidInSent =
        s.hidInSent ++ [s.HIDReportOutData, List.replicate cfg.GENERIC_REPORT_SIZE 0] := by
  obtain ⟨h1, h2, h3⟩ := HID_Task_receive_keeps_out cfg received s
  have hsent : (HID_Task cfg true received true s).hidInSent =
      s.hidInSent ++ [s.HIDReportOutData] := by
    rw [h1, (clearReportOut_report cfg _).2]
  have hout : (HID_Task cfg true received true s).HIDReportOutData =
      List.replicate cfg.GENERIC_REPORT_SIZE 0 := by
    rw [h1, (clearReportOut_report cfg _).1]
    show memset (HID_Task cfg true received false s).HIDReportOutData 0 _ = _
    rw [h2, memset_all _ _ (by omega), hlen]
  refine ⟨hsent, hout, ?_, ?_⟩
  · intro b hb
    rw [hout] at hb
    exact (List.mem_replicate.mp hb).2
  · obtain ⟨k1, _, _⟩ := HID_Task_receive_keeps_out cfg received2
      (HID_Task cfg true received true s)
    rw [k1, (clearReportOut_report cfg _).2]
    show (HID_Task cfg true received true s).hidInSent ++
      [(HID_Task cfg true received true s).HIDReportOutData] = _
    rw [hsent, hout]
    simp

/-- Witness of C3: a pending keyboard report is sent once and followed by zeroes. -/
theorem C3_report_sent_then_zeroed_witness :
    (HID_Task exampleConfig true none true
        (HID_Task exampleConfig true none true pendingReportState)).hidInSent =
      [[2, 0, 0, 4, 0, 0, 0, 0, 0], [0, 0, 0, 0, 0, 0, 0, 0, 0]] :=
  (C3_report_sent_then_zeroed exampleConfig pendingReportState none none (by decide)).2.2.2

/-- C10 (evaluation of the code): the clear after a send writes `GENERIC_REPORT_SIZE + 1`
bytes, one more than the declared length of `HIDReportOutData`; with 9-byte reports both
`HID_Task` and the GetReport control request write offset 9, which is not an index of the
array. -/
theorem C10_clear_writes_one_byte_past_end :
    (∀ cfg : Config, (memsetOffsets (cfg.GENERIC_REPORT_SIZE + 1)).length =
        cfg.GENERIC_REPORT_SIZE + 1 ∧
      cfg.GENERIC_REPORT_SIZE ∈ memsetOffsets (cfg.GENERIC_REPORT_SIZE + 1)) ∧
    pendingReportState.HIDReportOutData.length = exampleConfig.GENERIC_REPORT_SIZE ∧
    (HID_Task exampleConfig true none true pendingReportState).outOfBounds = [9] ∧
    (EVENT_USB_Device_ControlRequest exampleConfig ControlRequest.HID_REQ_GetReport
      pendingReportState).outOfBounds = [9] ∧
    ¬ (9 < pendingReportState.HIDReportOutData.length) := by
  refine ⟨?_, by decide, by decide, by decide, by decide⟩
  intro cfg
  simp [memsetOffsets]

/-- C2 (evaluation of the code): a 9-byte report of ones arrives on the HID OUT endpoint of a
configured device while a keyboard report is pending; `HID_Task` stores the received bytes in
`HIDReportInData` but calls `ProcessHIDReport` with `HIDReportOutData`, so the hook sees the
pending outbound report and not the report just received; the SetReport control request
passes `HIDReportInData`. -/
theorem C2_hook_called_with_outbound_buffer :
    (HID_Task exampleConfig true (some [1, 1, 1, 1, 1, 1, 1, 1, 1]) false
        pendingReportState).HIDReportInData = [1, 1, 1, 1, 1, 1, 1, 1, 1] ∧
    (HID_Task exampleConfig true (some [1, 1, 1, 1, 1, 1, 1, 1, 1]) false
        pendingReportState).processed =
      [(ReportBuffer.HIDReportOutData, [2, 0, 0, 4, 0, 0, 0, 0, 0])] ∧
    (HID_Task exampleConfig true (some [1, 1, 1, 1, 1, 1, 1, 1, 1]) false
        pendingReportState).processed ≠
      [(ReportBuffer.HIDReportInData, [1, 1, 1, 1, 1, 1, 1, 1, 1])] ∧
    (EVENT_USB_Device_ControlRequest exampleConfig
        (ControlRequest.HID_REQ_SetReport [1, 1, 1, 1, 1, 1, 1, 1, 1])
        pendingReportState).processed =
      [(ReportBuffer.HIDReportInData, [1, 1, 1, 1, 1, 1, 1, 1, 1])] := by
  decide

/-! ## The main loop and the occupancy of the outbound ring buffer -/

theorem schedulerStep_tickCounter (cfg : Config) (s : State) :
    (schedulerStep cfg s).tickCounter = s.tickCounter ∧
      (schedulerStep cfg s).LineEncodingData = s.LineEncodingData ∧
      (schedulerStep cfg s).HostSerialLocalEcho = s.HostSerialLocalEcho := by
  unfold schedulerStep
  split_ifs <;> exact ⟨rfl, rfl, rfl⟩

theorem schedulerStep_no_tick (cfg : Config) (s : State) (ht : s.tickCounter % 10000 ≠ 1000) :
    (schedulerStep cfg s).HostTXSerial_Buffer = s.HostTXSerial_Buffer := by
  unfold schedulerStep
  rw [if_neg ht]
  split_ifs <;> rfl

theorem schedulerStep_count (cfg : Config) (s : State) :
    (schedulerStep cfg s).HostTXSerial_Buffer.count =
        s.HostTXSerial_Buffer.count + (if s.tickCounter % 10000 = 1000 then 8 else 0) ∧
      (schedulerStep cfg s).HostTXSerial_Buffer.capacity = s.HostTXSerial_Buffer.capacity := by
  by_cases ht : s.tickCounter % 10000 = 1000
  · rw [schedulerStep_tick cfg s ht, if_pos ht]; exact ⟨rfl, rfl⟩
  · rw [schedulerStep_no_tick cfg s ht, if_neg ht]; exact ⟨rfl, rfl⟩

theorem schedulerStep_report_length (cfg : Config) (s : State) :
    (schedulerStep cfg s).HIDReportOutData.length = s.HIDReportOutData.length := by
  unfold schedulerStep
  split_ifs <;> simp [List.length_set]

theorem strayFold_frame (cfg : Config) (hstray : StrayByteHarmless cfg) :
    ∀ (offsets : List Nat) (s : State),
      (offsets.foldl (strayStore cfg) s).HostTXSerial_Buffer = s.HostTXSerial_Buffer ∧
        (offsets.foldl (strayStore cfg) s).tickCounter = s.tickCounter ∧
        (offsets.foldl (strayStore cfg) s).HostSerialLocalEcho = s.HostSerialLocalEcho := by
  intro offsets
  induction offsets with
  | nil => intro s; exact ⟨rfl, rfl, rfl⟩
  | cons k rest ih =>
    intro s
    rw [List.foldl_cons]
    obtain ⟨h1, h2, h3⟩ := ih (strayStore cfg s k)
    obtain ⟨g1, g2, g3⟩ := hstray k s.neighbours
    exact ⟨h1.trans g1, h2.trans g2, h3.trans g3⟩

theorem clearReportOut_frame (cfg : Config) (hstray : StrayByteHarmless cfg) (s : State) :
    (clearReportOut cfg s).HostTXSerial_Buffer = s.HostTXSerial_Buffer ∧
      (clearReportOut cfg s).tickCounter = s.tickCounter ∧
      (clearReportOut cfg s).HostSerialLocalEcho = s.HostSerialLocalEcho ∧
      (clearReportOut cfg s).HIDReportOutData.length = s.HIDReportOutData.length := by
  refine ⟨?_, ?_, ?_, ?_⟩
  · unfold clearReportOut; exact (strayFold_frame cfg hstray _ _).1
  · unfold clearReportOut; exact (strayFold_frame cfg hstray _ _).2.1
  · unfold clearReportOut; exact (strayFold_frame cfg hstray _ _).2.2
  · rw [(clearReportOut_report cfg s).1, memset_length]

theorem HID_Task_frame (cfg : Config) (hstray : StrayByteHarmless cfg) (configured : Bool)
    (received : Option (List Nat)) (inReady : Bool) (s : State) :
    (HID_Task cfg configured received inReady s).HostTXSerial_Buffer = s.HostTXSerial_Buffer ∧
      (HID_Task cfg configured received inReady s).tickCounter = s.tickCounter ∧
      (HID_Task cfg configured received inReady s).HostSerialLocalEcho =
        s.HostSerialLocalEcho ∧
      (HID_Task cfg configured received inReady s).HIDReportOutData.length =
        s.HIDReportOutData.length := by
  cases configured with
  | false => exact ⟨rfl, rfl, rfl, rfl⟩
  | true =>
    have hrecv : (HID_Task cfg true received false s).HostTXSerial_Buffer =
          s.HostTXSerial_Buffer ∧
        (HID_Task cfg true received false s).tickCounter = s.tickCounter ∧
        (HID_Task cfg true received false s).HostSerialLocalEcho = s.HostSerialLocalEcho ∧
        (HID_Task cfg true received false s).HIDReportOutData = s.HIDReportOutData := by
      unfold HID_Task
      cases received with
      | none => simp
      | some packet =>
        by_cases hp : packet.length ≠ 0
        · simp [hp, ProcessHIDReport]
        · simp [hp]
    cases inReady with
    | false =>
      obtain ⟨a1, a2, a3, a4⟩ := hrecv
      exact ⟨a1, a2, a3, by rw [a4]⟩
    | true =>
      obtain ⟨a1, a2, a3, a4⟩ := hrecv
      obtain ⟨k1, _, _⟩ := HID_Task_receive_keeps_out cfg received s
      obtain ⟨c1, c2, c3, c4⟩ := clearReportOut_frame cfg hstray
        { (HID_Task cfg true received false s) with
          hidInSent := s.hidInSent ++ [s.HIDReportOutData] }
      rw [k1]
      refine ⟨c1.trans a1, c2.trans a2, c3.trans a3, c4.trans ?_⟩
      show (HID_Task cfg true received false s).HIDReportOutData.length = _
      rw [a4]

theorem EVENT_frame (cfg : Config) (hstray : StrayByteHarmless cfg) (e : UsbEvent)
    (s : State) :
    (match e with
        | .configurationChanged => EVENT_USB_Device_ConfigurationChanged s
        | .controlRequest req =>
          EVENT_USB_Device_ControlRequest cfg req s).HostTXSerial_Buffer =
        s.HostTXSerial_Buffer ∧
      (match e with
        | .configurationChanged => EVENT_USB_Device_ConfigurationChanged s
        | .controlRequest req => EVENT_USB_Device_ControlRequest cfg req s).tickCounter =
        s.tickCounter ∧
      (match e with
        | .configurationChanged => EVENT_USB_Device_ConfigurationChanged s
        | .controlRequest req =>
          EVENT_USB_Device_ControlRequest cfg req s).HostSerialLocalEcho =
        s.HostSerialLocalEcho ∧
      (match e with
        | .configurationChanged => EVENT_USB_Device_ConfigurationChanged s
        | .controlRequest req =>
          EVENT_USB_Device_ControlRequest cfg req s).HIDReportOutData.length =
        s.HIDReportOutData.length := by
  cases e with
  | configurationChanged => exact ⟨rfl, rfl, rfl, rfl⟩
  | controlRequest req =>
    cases req with
    | HID_REQ_GetReport =>
      exact clearReportOut_frame cfg hstray
        { s with controlSent := s.controlSent ++ [s.HIDReportOutData] }
    | HID_REQ_SetReport report => exact ⟨rfl, rfl, rfl, rfl⟩
    | CDC_REQ_GetLineEncoding => exact ⟨rfl, rfl, rfl, rfl⟩
    | CDC_REQ_SetLineEncoding encoding => exact ⟨rfl, rfl, rfl, rfl⟩
    | CDC_REQ_SetControlLineState => exact ⟨rfl, rfl, rfl, rfl⟩
    | other => exact ⟨rfl, rfl, rfl, rfl⟩

theorem USB_USBTask_frame (cfg : Config) (hstray : StrayByteHarmless cfg) :
    ∀ (events : List UsbEvent) (s : State),
      (USB_USBTask cfg events s).HostTXSerial_Buffer = s.HostTXSerial_Buffer ∧
        (USB_USBTask cfg events s).tickCounter = s.tickCounter ∧
        (USB_USBTask cfg events s).HostSerialLocalEcho = s.HostSerialLocalEcho ∧
        (USB_USBTask cfg events s).HIDReportOutData.length = s.HIDReportOutData.length := by
  intro events
  induction events with
  | nil => intro s; exact ⟨rfl, rfl, rfl, rfl⟩
  | cons e rest ih =>
    intro s
    unfold USB_USBTask at ih ⊢
    rw [List.foldl_cons]
    obtain ⟨h1, h2, h3, h4⟩ := ih
      (match e with
        | .configurationChanged => EVENT_USB_Device_ConfigurationChanged s
        | .controlRequest req => EVENT_USB_Device_ControlRequest cfg req s)
    obtain ⟨g1, g2, g3, g4⟩ := EVENT_frame cfg hstray e s
    exact ⟨h1.trans g1, h2.trans g2, h3.trans g3, h4.trans g4⟩

theorem mainLoopIteration_frame (cfg : Config) (hstray : StrayByteHarmless cfg) (h : HostStep)
    (s s2 : State)
    (h2 : CDC_Task cfg h.configured h.serialReceived (schedulerStep cfg s) = some s2) :
    ∃ s', mainLoopIteration cfg h s = some s' ∧
      s'.HostTXSerial_Buffer = s2.HostTXSerial_Buffer ∧
      s'.tickCounter = (s2.tickCounter + 1) % 4294967296 ∧
      s'.HostSerialLocalEcho = s2.HostSerialLocalEcho ∧
      s'.HIDReportOutData.length = s2.HIDReportOutData.length := by
  unfold mainLoopIteration
  rw [h2]
  obtain ⟨u1, u2, u3, u4⟩ := USB_USBTask_frame cfg hstray h.usbEvents
    (HID_Task cfg h.configured h.hidReceived h.hidInReady s2)
  obtain ⟨k1, k2, k3, k4⟩ := HID_Task_frame cfg hstray h.configured h.hidReceived
    h.hidInReady s2
  refine ⟨_, rfl, ?_, ?_, ?_, ?_⟩
  · exact u1.trans k1
  · show ((USB_USBTask cfg h.usbEvents _).tickCounter + 1) % 4294967296 = _
    rw [u2, k2]
  · exact u3.trans k3
  · exact u4.trans k4

theorem CDC_Task_unconfigured (cfg : Config) (received : Option (List Nat)) (s : State) :
    CDC_Task cfg false received s = some s := by
  simp [CDC_Task]

theorem mainLoopIteration_silentHost (cfg : Config) (s : State) :
    mainLoopIteration cfg silentHost s =
      some { schedulerStep cfg s with
        tickCounter := ((schedulerStep cfg s).tickCounter + 1) % 4294967296 } := by
  simp [mainLoopIteration, silentHost, CDC_Task, HID_Task, USB_USBTask]

theorem run_silentHost (cfg : Config) : ∀ (n : Nat) (s : State),
    s.tickCounter + n < 4294967296 →
    ∃ s', run cfg (List.replicate n silentHost) s = some s' ∧
      s'.tickCounter = s.tickCounter + n ∧
      s'.HostTXSerial_Buffer.capacity = s.HostTXSerial_Buffer.capacity ∧
      s'.HostTXSerial_Buffer.count = s.HostTXSerial_Buffer.count +
        8 * ((s.tickCounter + n + 8999) / 10000 - (s.tickCounter + 8999) / 10000) := by
  intro n
  induction n with
  | zero => intro s _; exact ⟨s, rfl, rfl, rfl, by simp⟩
  | succ n ih =>
    intro s hlt
    have h1 := mainLoopIteration_silentHost cfg s
    have htick1 : ({ schedulerStep cfg s with
        tickCounter := ((schedulerStep cfg s).tickCounter + 1) % 4294967296 } :
          State).tickCounter = s.tickCounter + 1 := by
      show ((schedulerStep cfg s).tickCounter + 1) % 4294967296 = _
      rw [(schedulerStep_tickCounter cfg s).1]
      exact Nat.mod_eq_of_lt (by omega)
    obtain ⟨hcount, hcap⟩ := schedulerStep_count cfg s
    obtain ⟨s', h', a1, a2, a3⟩ := ih _ (by rw [htick1]; omega)
    rw [htick1] at a1 a3
    refine ⟨s', ?_, ?_, ?_, ?_⟩
    · simp [List.replicate_succ, run, h1, h']
    · rw [a1]; omega
    · rw [a2]; exact hcap
    · rw [a3]
      show (schedulerStep cfg s).HostTXSerial_Buffer.count + _ = _
      rw [hcount]
      split_ifs with ht <;> omega

/-- With the layout of `tickNeighbourConfig` the clear after a HID send reaches `tickCounter`:
at tick 1000 the counter falls back to 768. -/
theorem clearReportOut_reaches_neighbour :
    (HID_Task tickNeighbourConfig true none true
        { openPortState with tickCounter := 1000 }).tickCounter = 768 ∧
      ¬ StrayByteHarmless tickNeighbourConfig := by
  refine ⟨by decide, ?_⟩
  intro h
  have := (h 9 { openPortState with tickCounter := 1000 }.neighbours).2.1
  exact absurd this (by decide)

/-! ## The drain budget -/

theorem iterationsUntilTickMessage_tick (t : Nat) (ht32 : t < 4294967296)
    (ht : t % 10000 = 1000) :
    iterationsUntilTickMessage t = 0 ∧
      8 ≤ iterationsUntilTickMessage ((t + 1) % 4294967296) := by
  have hle : t ≤ 4294961000 := by omega
  have hnext : (t + 1) % 4294967296 = t + 1 := Nat.mod_eq_of_lt (by omega)
  rw [hnext]
  unfold iterationsUntilTickMessage
  rw [if_pos hle]
  refine ⟨by omega, ?_⟩
  split_ifs <;> omega

theorem iterationsUntilTickMessage_step (t : Nat) (ht32 : t < 4294967296)
    (ht : t % 10000 ≠ 1000) :
    iterationsUntilTickMessage t =
      iterationsUntilTickMessage ((t + 1) % 4294967296) + 1 := by
  by_cases hwrap : t = 4294967295
  · subst hwrap; decide
  · have hnext : (t + 1) % 4294967296 = t + 1 := Nat.mod_eq_of_lt (by omega)
    rw [hnext]
    unfold iterationsUntilTickMessage
    split_ifs <;> omega

/-- The function `iterationsUntilTickMessage` is the distance to the next tick message: the
iteration that many steps ahead emits one, and no earlier iteration does. -/
theorem iterationsUntilTickMessage_spec (t : Nat) (ht32 : t < 4294967296) :
    ((t + iterationsUntilTickMessage t) % 4294967296) % 10000 = 1000 ∧
      ∀ k, k < iterationsUntilTickMessage t → ((t + k) % 4294967296) % 10000 ≠ 1000 := by
  unfold iterationsUntilTickMessage
  by_cases hle : t ≤ 4294961000
  · rw [if_pos hle]
    have hd : t + (11000 - t % 10000) % 10000 < 4294967296 := by omega
    refine ⟨by rw [Nat.mod_eq_of_lt hd]; omega, ?_⟩
    intro k hk
    have hk2 : t + k < 4294967296 := by omega
    rw [Nat.mod_eq_of_lt hk2]
    omega
  · rw [if_neg hle]
    have hsum : t + (4294967296 - t + 1000) = 4294967296 + 1000 := by omega
    refine ⟨by rw [hsum], ?_⟩
    intro k hk
    by_cases hk2 : t + k < 4294967296
    · rw [Nat.mod_eq_of_lt hk2]; omega
    · have h3 : (t + k) % 4294967296 = t + k - 4294967296 := by
        rw [Nat.mod_eq_sub_mod (by omega)]
        exact Nat.mod_eq_of_lt (by omega)
      rw [h3]
      have h4 : t + k - 4294967296 < 1000 := by omega
      rw [Nat.mod_eq_of_lt (by omega)]
      omega

/-! ## The invariant of the main loop -/

theorem initialState_invariant (cfg : Config) : TickInvariant cfg (initialState cfg) := by
  unfold TickInvariant RingBuffer.WF
  simp [initialState, RingBuffer_InitBuffer]

theorem CDC_Task_paced_spec (cfg : Config) (configured : Bool) (received : Option (List Nat))
    (s : State) (budget : Nat) (hwf : s.HostTXSerial_Buffer.WF)
    (hcap : s.HostTXSerial_Buffer.capacity = 128) (hecho : s.HostSerialLocalEcho = true)
    (hdrain : s.HostTXSerial_Buffer.count -
      min s.HostTXSerial_Buffer.count cfg.CDC_TXRX_EPSIZE ≤ budget)
    (hpacket : ∀ packet, configured = true → received = some packet →
      s.HostTXSerial_Buffer.count - drainCount cfg s + packet.length ≤ 128 ∧
        s.HostTXSerial_Buffer.count - drainCount cfg s + packet.length ≤ budget)
    (hidle : configured = false ∨ received = none →
      s.HostTXSerial_Buffer.count ≤ budget ∨
        (configured = true ∧ s.LineEncodingData.BaudRateBPS ≠ 0)) :
    ∃ s2, CDC_Task cfg configured received s = some s2 ∧ s2.HostTXSerial_Buffer.WF ∧
      s2.HostTXSerial_Buffer.capacity = 128 ∧ s2.tickCounter = s.tickCounter ∧
      s2.HostSerialLocalEcho = true ∧ s2.HIDReportOutData = s.HIDReportOutData ∧
      s2.HostTXSerial_Buffer.count ≤ budget := by
  have hle : s.HostTXSerial_Buffer.count ≤ 128 := by rw [← hcap]; exact hwf.2.2.1
  cases configured with
  | false =>
    refine ⟨s, CDC_Task_unconfigured cfg received s, hwf, hcap, rfl, hecho, rfl, ?_⟩
    rcases hidle (Or.inl rfl) with h | h
    · exact h
    · exact absurd h.1 (by decide)
  | true =>
    obtain ⟨s1, h1, hTX, _, _, hsame⟩ := CDC_Task_outbound_spec cfg s (by omega)
    have hd := drainCount_le cfg s
    have hwf1 : s1.HostTXSerial_Buffer.WF := by
      rw [hTX]; exact RingBuffer.dropFront_wf _ _ hd hwf
    have hcap1 : s1.HostTXSerial_Buffer.capacity = 128 := by
      rw [hTX, RingBuffer.dropFront_capacity, hcap]
    have hcount1 : s1.HostTXSerial_Buffer.count =
        s.HostTXSerial_Buffer.count - drainCount cfg s := by
      rw [hTX, RingBuffer.dropFront_count]
    have hecho1 : s1.HostSerialLocalEcho = true := by rw [hsame.2.2.2.2.2]; exact hecho
    have htick1 : s1.tickCounter = s.tickCounter := hsame.2.2.2.1
    have hout1 : s1.HIDReportOutData = s.HIDReportOutData := hsame.2.2.1
    cases received with
    | none =>
      refine ⟨s1, by simp [CDC_Task, h1, CDC_Task_inbound], hwf1, hcap1, htick1, hecho1,
        hout1, ?_⟩
      rw [hcount1]
      rcases hidle (Or.inr rfl) with h | ⟨_, hb⟩
      · omega
      · have hdc : drainCount cfg s =
            min s.HostTXSerial_Buffer.count cfg.CDC_TXRX_EPSIZE := by
          unfold drainCount; rw [if_neg hb]
        rw [hdc]; exact hdrain
    | some packet =>
      obtain ⟨hfit, hbudget⟩ := hpacket packet rfl rfl
      obtain ⟨_, a2, a3, a4, _, a6⟩ := receiveLoop_echo packet s1 hecho1 hwf1
        (by rw [hcount1, hcap1]; exact hfit)
      refine ⟨packet.foldl receiveByte s1, by simp [CDC_Task, h1, CDC_Task_inbound], a2,
        by rw [a4, hcap1], by rw [a6.2.2.2.1, htick1], by rw [a6.2.2.2.2.2, hecho1],
        by rw [a6.2.2.1, hout1], ?_⟩
      rw [a3, hcount1]; exact hbudget

theorem schedulerStep_invariant (cfg : Config) (s : State) (hinv : TickInvariant cfg s) :
    (schedulerStep cfg s).HostTXSerial_Buffer.WF ∧
      (schedulerStep cfg s).HostTXSerial_Buffer.capacity = 128 ∧
      (s.tickCounter % 10000 = 1000 → s.HostTXSerial_Buffer.count + 8 ≤ 128) ∧
      (schedulerStep cfg s).HostTXSerial_Buffer.count ≤ 128 := by
  obtain ⟨hwf, hcap, ht32, _, _, hq⟩ := hinv
  obtain ⟨hcount, hcap'⟩ := schedulerStep_count cfg s
  have hle : s.HostTXSerial_Buffer.count ≤ 128 := by rw [← hcap]; exact hwf.2.2.1
  have hroom : s.tickCounter % 10000 = 1000 → s.HostTXSerial_Buffer.count + 8 ≤ 128 := by
    intro ht
    unfold drainBudget at hq
    rw [(iterationsUntilTickMessage_tick _ ht32 ht).1, Nat.mul_zero] at hq
    omega
  refine ⟨?_, by rw [hcap', hcap], hroom, ?_⟩
  · by_cases ht : s.tickCounter % 10000 = 1000
    · rw [schedulerStep_tick cfg s ht]
      have h0 := hroom ht
      exact (insertAll_spec _ _ hwf
        (by simp only [List.length_cons, List.length_nil]; omega)).2.1
    · rw [schedulerStep_no_tick cfg s ht]; exact hwf
  · rw [hcount]
    split_ifs with ht
    · have := hroom ht; omega
    · omega

theorem drain_within_budget (cfg : Config) (hE : 0 < cfg.CDC_TXRX_EPSIZE) (s : State)
    (hinv : TickInvariant cfg s) :
    (schedulerStep cfg s).HostTXSerial_Buffer.count -
        min (schedulerStep cfg s).HostTXSerial_Buffer.count cfg.CDC_TXRX_EPSIZE ≤
      drainBudget cfg ((s.tickCounter + 1) % 4294967296) := by
  obtain ⟨_, _, _, hle1⟩ := schedulerStep_invariant cfg s hinv
  obtain ⟨hcount, _⟩ := schedulerStep_count cfg s
  obtain ⟨_, _, ht32, _, _, hq⟩ := hinv
  unfold drainBudget at hq ⊢
  by_cases ht : s.tickCounter % 10000 = 1000
  · have h8 := (iterationsUntilTickMessage_tick _ ht32 ht).2
    have hmul : iterationsUntilTickMessage ((s.tickCounter + 1) % 4294967296) ≤
        cfg.CDC_TXRX_EPSIZE * iterationsUntilTickMessage ((s.tickCounter + 1) % 4294967296) :=
      Nat.le_mul_of_pos_left _ hE
    omega
  · rw [iterationsUntilTickMessage_step _ ht32 ht, Nat.mul_succ] at hq
    rw [hcount, if_neg ht]
    omega

theorem mainLoopIteration_invariant (cfg : Config) (hE : 0 < cfg.CDC_TXRX_EPSIZE)
    (hstray : StrayByteHarmless cfg) (h : HostStep) (s : State) (hinv : TickInvariant cfg s)
    (hpacket : ∀ packet, h.configured = true → h.serialReceived = some packet →
      (schedulerStep cfg s).HostTXSerial_Buffer.count - drainCount cfg (schedulerStep cfg s) +
          packet.length ≤ 128 ∧
        (schedulerStep cfg s).HostTXSerial_Buffer.count -
            drainCount cfg (schedulerStep cfg s) + packet.length ≤
          drainBudget cfg ((s.tickCounter + 1) % 4294967296))
    (hidle : h.configured = false ∨ h.serialReceived = none →
      (schedulerStep cfg s).HostTXSerial_Buffer.count ≤
          drainBudget cfg ((s.tickCounter + 1) % 4294967296) ∨
        (h.configured = true ∧ s.LineEncodingData.BaudRateBPS ≠ 0)) :
    ∃ s', mainLoopIteration cfg h s = some s' ∧ TickInvariant cfg s' := by
  obtain ⟨hwf1, hcap1, _, _⟩ := schedulerStep_invariant cfg s hinv
  obtain ⟨htick1, henc1, hecho1⟩ := schedulerStep_tickCounter cfg s
  have hdrain := drain_within_budget cfg hE s hinv
  obtain ⟨_, _, ht32, hecho, hlen, _⟩ := hinv
  obtain ⟨s2, h2, hwf2, hcap2, htick2, hecho2, hout2, hcnt2⟩ :=
    CDC_Task_paced_spec cfg h.configured h.serialReceived (schedulerStep cfg s)
      (drainBudget cfg ((s.tickCounter + 1) % 4294967296)) hwf1 hcap1
      (by rw [hecho1]; exact hecho) hdrain hpacket (by rw [henc1]; exact hidle)
  obtain ⟨s', h', hTX, htick, hecho', hlen'⟩ := mainLoopIteration_frame cfg hstray h s s2 h2
  rw [htick2, htick1] at htick
  refine ⟨s', h', ?_, ?_, ?_, ?_, ?_, ?_⟩
  · rw [hTX]; exact hwf2
  · rw [hTX, hcap2]
  · rw [htick]; exact Nat.mod_lt _ (by decide)
  · rw [hecho', hecho2]
  · rw [hlen', hout2, schedulerStep_report_length, hlen]
  · rw [hTX, htick]; exact hcnt2

theorem run_invariant (cfg : Config) (hE : 0 < cfg.CDC_TXRX_EPSIZE)
    (hstray : StrayByteHarmless cfg) :
    ∀ (hs : List HostStep) (s : State), TickInvariant cfg s → pacedHost cfg s hs = true →
      ∃ s', run cfg hs s = some s' ∧ TickInvariant cfg s' := by
  intro hs
  induction hs with
  | nil => intro s hinv _; exact ⟨s, rfl, hinv⟩
  | cons h rest ih =>
    intro s hinv hpaced
    have hcap1 := (schedulerStep_invariant cfg s hinv).2.1
    simp only [pacedHost, Bool.and_eq_true] at hpaced
    obtain ⟨hstep, hrest⟩ := hpaced
    obtain ⟨s1, h1, hinv1⟩ := mainLoopIteration_invariant cfg hE hstray h s hinv
      (by
        intro packet hconf hrx
        rw [hconf, hrx] at hstep
        simp only [decide_eq_true_eq, hcap1] at hstep
        exact ⟨le_trans hstep (Nat.min_le_left _ _), le_trans hstep (Nat.min_le_right _ _)⟩)
      (by
        intro hno
        rcases hno with hconf | hrx
        · rw [hconf] at hstep
          simp only [Bool.false_and, Bool.or_false, decide_eq_true_eq] at hstep
          exact Or.inl hstep
        · rw [hrx] at hstep
          cases hconf : h.configured with
          | false =>
            rw [hconf] at hstep
            simp only [Bool.false_and, Bool.or_false, decide_eq_true_eq] at hstep
            exact Or.inl hstep
          | true =>
            rw [hconf] at hstep
            simp only [Bool.true_and, Bool.or_eq_true, decide_eq_true_eq] at hstep
            rcases hstep with hb | hb
            · exact Or.inl hb
            · exact Or.inr ⟨rfl, hb⟩)
    rw [h1] at hrest
    obtain ⟨s', h', hinv'⟩ := ih s1 hinv1 hrest
    exact ⟨s', by simp [run, h1, h'], hinv'⟩

/-- C4 (counterexample): a host that never attaches. After 161000 iterations the outbound
ring buffer holds 16 tick messages, so its count equals its capacity 128 and the tick counter
is at a tick-message value: the scheduler inserts into a full buffer, and after iteration
161001 the count is 136, above the capacity. -/
theorem C4_counterexample_host_never_opens :
    (run exampleConfig (List.replicate 161000 silentHost) (initialState exampleConfig)).map
        (fun s => (s.tickCounter % 10000, s.HostTXSerial_Buffer.count,
          s.HostTXSerial_Buffer.capacity)) = some (1000, 128, 128) ∧
    (run exampleConfig (List.replicate 161001 silentHost) (initialState exampleConfig)).map
        (fun s => (s.HostTXSerial_Buffer.count, s.HostTXSerial_Buffer.capacity)) =
      some (136, 128) ∧
    (run exampleConfig (List.replicate 161001 silentHost) (initialState exampleConfig)).map
        (fun s => decide (s.HostTXSerial_Buffer.count ≤ s.HostTXSerial_Buffer.capacity)) =
      some false := by
  obtain ⟨s1, h1, t1, c1, n1⟩ :=
    run_silentHost exampleConfig 161000 (initialState exampleConfig) (by decide)
  obtain ⟨s2, h2, _, c2, n2⟩ :=
    run_silentHost exampleConfig 161001 (initialState exampleConfig) (by decide)
  have e1 : s1.tickCounter = 161000 := t1
  have e2 : s1.HostTXSerial_Buffer.count = 128 := n1
  have e3 : s1.HostTXSerial_Buffer.capacity = 128 := c1
  have e4 : s2.HostTXSerial_Buffer.count = 136 := n2
  have e5 : s2.HostTXSerial_Buffer.capacity = 128 := c2
  rw [h1, h2]
  simp only [Option.map_some', e1, e2, e3, e4, e5]
  decide

/-- C4 (amended): assume `CDC_TXRX_EPSIZE ≥ 1`, `GENERIC_REPORT_SIZE ≥ 9`, and that no byte
written beyond the end of `HIDReportOutData` belongs to the outbound ring buffer, `tickCounter`
or `HostSerialLocalEcho`. In every state reached from the initial state by main-loop
iterations of a host that keeps the outbound ring buffer drainable (`pacedHost`: the port is
open unless the queued bytes are within the drain budget, and a packet is read only when it
fits and stays within that budget) the outbound ring buffer is well formed with
`count ≤ capacity = 128`; whenever the scheduler is about to emit a tick message there are
8 free slots, so each insert of the tick message happens while `count < capacity`; the count
after the scheduler step is within the capacity; and the report array still has the nine cells
the scheduler writes. -/
theorem C4_count_bounded_for_paced_host (cfg : Config) (hE : 0 < cfg.CDC_TXRX_EPSIZE)
    (hsize : 9 ≤ cfg.GENERIC_REPORT_SIZE) (hstray : StrayByteHarmless cfg)
    (hs : List HostStep) (hpaced : pacedHost cfg (initialState cfg) hs = true) :
    ∃ s, run cfg hs (initialState cfg) = some s ∧ s.HostTXSerial_Buffer.WF ∧
      s.HostTXSerial_Buffer.capacity = 128 ∧
      s.HostTXSerial_Buffer.count ≤ s.HostTXSerial_Buffer.capacity ∧
      (s.tickCounter % 10000 = 1000 →
        s.HostTXSerial_Buffer.count + 8 ≤ s.HostTXSerial_Buffer.capacity) ∧
      (schedulerStep cfg s).HostTXSerial_Buffer.count ≤
        (schedulerStep cfg s).HostTXSerial_Buffer.capacity ∧
      9 ≤ s.HIDReportOutData.length := by
  obtain ⟨s, hrun, hinv⟩ :=
    run_invariant cfg hE hstray hs _ (initialState_invariant cfg) hpaced
  obtain ⟨_, hcap1, hroom, hle1⟩ := schedulerStep_invariant cfg s hinv
  obtain ⟨hwf, hcap, _, _, hlen, _⟩ := hinv
  refine ⟨s, hrun, hwf, hcap, hwf.2.2.1, ?_, ?_, ?_⟩
  · intro ht; rw [hcap]; exact hroom ht
  · rw [hcap1]; exact hle1
  · rw [hlen]; exact hsize

/-- Witness of C4 (amended): the host of `lateOpeningHost` stays away past the tick message of
tick 1000, opens the port during the iteration of tick 1001, lets the message drain while the
HID IN endpoint is polled (so the clear behind the report array runs), and sends two bytes
that are echoed. The run ends at tick 1005 with those two bytes queued and the tick message
transmitted. -/
theorem C4_count_bounded_for_paced_host_witness :
    0 < exampleConfig.CDC_TXRX_EPSIZE ∧ 9 ≤ exampleConfig.GENERIC_REPORT_SIZE ∧
      StrayByteHarmless exampleConfig ∧
      pacedHost exampleConfig (initialState exampleConfig) lateOpeningHost = true ∧
      (run exampleConfig lateOpeningHost (initialState exampleConfig)).map
        (fun s => decide (s.HostTXSerial_Buffer.count ≤ s.HostTXSerial_Buffer.capacity)) =
          some true ∧
      (run exampleConfig lateOpeningHost (initialState exampleConfig)).map
        (fun s => (s.tickCounter, s.HostTXSerial_Buffer.contents, s.txStream)) =
          some (1005, [104, 105], [84, 105, 99, 107, 32, 48, 10, 13]) := by
  have hharmless : StrayByteHarmless exampleConfig := fun _ _ => ⟨rfl, rfl, rfl⟩
  have hpaced : pacedHost exampleConfig (initialState exampleConfig) lateOpeningHost = true := by
    decide!
  obtain ⟨s, h1, _, _, hle, _⟩ :=
    C4_count_bounded_for_paced_host exampleConfig (by decide) (by decide) hharmless
      lateOpeningHost hpaced
  refine ⟨by decide, by decide, hharmless, hpaced, ?_, by decide!⟩
  rw [h1]
  simp [hle]

end Keyglove
